import Mathlib

/-!
# The `freeipa_host` resource: a shallow embedding of `resource_freeipa_host.go`

The five callbacks of the resource (`Create`, `Read`, `Update`, `Delete`, `Import`) are
translated into total Lean functions over an explicit world:

* the declarative record `*schema.ResourceData` becomes the structure `ResourceData`
  (the identifier plus the six schema attributes);
* `meta.(*Config).Client()` becomes a function of the number of earlier factory calls, so
  every call may succeed or fail independently, and the handle it returns carries the
  answers of the four remote operations;
* every factory call, remote call and `time.Sleep` is appended to a chronological trace;
* `time.Duration` is a signed 64-bit count of nanoseconds: an `Int` wrapped by `wrapInt64`;
* the `for` loop of `Create` has no exit but a successful `Read`, so the model takes a
  fuel (the maximal number of `Read` attempts) and reports `Outcome.running` when it is
  spent while the loop is still going;
* dereferencing a nil `*string` is the outcome `Outcome.nilDeref`.

`log.Printf` lines are kept as trace events (format string and argument): the line that
opens `Read` marks each `Read` attempt in the trace.
-/

namespace FreeIPA

set_option maxRecDepth 100000

/-! ## Data model -/

/-- A Go `error` value that is not nil. -/
abbrev Error := String

/-- The record `d *schema.ResourceData`: the identifier (`d.Id()`) and the attributes of the
schema declared by `resourceFreeIPAHost`. -/
structure ResourceData where
  id : String
  fqdn : String
  description : String
  random : Bool
  userpassword : String
  randompassword : String
  force : Bool
  deriving DecidableEq, Repr

/-- The fields of `ipa.HostAddOptionalArgs` the adapter fills in; `none` is a nil pointer,
that is an argument that is not sent. -/
structure HostAddOptionalArgs where
  Description : Option String
  Random : Option Bool
  Force : Option Bool
  Userpassword : Option String
  deriving DecidableEq, Repr

/-- The fields of `ipa.HostModOptionalArgs` the adapter fills in. -/
structure HostModOptionalArgs where
  Description : Option String
  Random : Option Bool
  Userpassword : Option String
  deriving DecidableEq, Repr

/-- The fields of `res.Result` (an `ipa.Host`) the adapter reads; `none` is a nil pointer. -/
structure Host where
  Description : Option String
  Userpassword : Option String
  Randompassword : Option String
  deriving DecidableEq, Repr

/-- A remote handle as returned by the client factory: the answer of each of the four host
operations to the arguments it is called with. -/
structure Client where
  HostAdd : String → HostAddOptionalArgs → Except Error Host
  HostMod : String → HostModOptionalArgs → Except Error Host
  HostShow : String → Except Error Host
  HostDel : List String → Except Error Unit

/-- The client factory `meta.(*Config).Client()`: what its `n`-th call (counting from 0)
returns. -/
abbrev Config := Nat → Except Error Client

/-- What the adapter does to the outside, in the order it does it. -/
inductive Event where
  | log (format : String) (arg : String)
  | factory
  | hostAdd (fqdn : String) (optArgs : HostAddOptionalArgs)
  | hostMod (fqdn : String) (optArgs : HostModOptionalArgs)
  | hostShow (fqdn : String)
  | hostDel (fqdn : List String)
  | sleep (d : Int)
  deriving DecidableEq, Repr

/-- The state a callback runs in: the record, the number of factory calls made so far and
the trace of events. -/
structure World where
  d : ResourceData
  clientCalls : Nat
  trace : List Event
  deriving DecidableEq, Repr

/-- How a callback that may crash or spin ends. -/
inductive Outcome where
  | returned (err : Option Error)
  | nilDeref
  | running
  deriving DecidableEq, Repr

/-- Append one event to the trace. -/
def World.emit (w : World) (e : Event) : World :=
  { w with trace := w.trace ++ [e] }

/-- The call `d.SetId(v)`. -/
def World.SetId (w : World) (v : String) : World :=
  { w with d := { w.d with id := v } }

/-- One call of `meta.(*Config).Client()`. -/
def callClient (cfg : Config) (w : World) : World × Except Error Client :=
  ({ w with clientCalls := w.clientCalls + 1, trace := w.trace ++ [Event.factory] },
    cfg w.clientCalls)

/-! ## Durations -/

/-- Two's complement wrap-around of a signed 64-bit integer. -/
def wrapInt64 (x : Int) : Int := (x + 2 ^ 63) % 2 ^ 64 - 2 ^ 63

/-- The constant `time.Second`, in nanoseconds. -/
def Second : Int := 1000000000

/-! ## The callbacks -/

/-- The function `resourceFreeIPAHostRead`. -/
def resourceFreeIPAHostRead (cfg : Config) (w : World) : World × Option Error :=
  let w := w.emit (Event.log "[INFO] Refreshing Host: %s" w.d.id)
  match callClient cfg w with
  | (w, .error err) => (w, some err)
  | (w, .ok client) =>
    let fqdn := w.d.fqdn
    let w := w.emit (Event.hostShow fqdn)
    match client.HostShow fqdn with
    | .error err => (w, some err)
    | .ok res =>
      let w :=
        match res.Description with
        | some v => { w with d := { w.d with description := v } }
        | none => w
      let w :=
        match res.Userpassword with
        | some v => { w with d := { w.d with userpassword := v } }
        | none => w
      (w, none)

/-- The statement `if d.Get("random").(bool) { d.Set("randompassword", *res.Result.Randompassword) }`
shared by `Create` and `Update`; `none` is the nil-pointer dereference. -/
def setRandompassword (res : Host) (w : World) : Option World :=
  if w.d.random then
    match res.Randompassword with
    | none => none
    | some v => some { w with d := { w.d with randompassword := v } }
  else some w

/-- The retry loop that ends `resourceFreeIPAHostCreate`; `fuel` bounds the number of `Read`
attempts. -/
def createRetryLoop (cfg : Config) : Nat → Int → World → World × Outcome
  | 0, _, w => (w, Outcome.running)
  | fuel + 1, sleepDelay, w =>
    match resourceFreeIPAHostRead cfg w with
    | (w, none) => (w, Outcome.returned none)
    | (w, some _) =>
      createRetryLoop cfg fuel (wrapInt64 (sleepDelay * 2)) (w.emit (Event.sleep sleepDelay))

/-- The function `resourceFreeIPAHostCreate`. -/
def resourceFreeIPAHostCreate (cfg : Config) (fuel : Nat) (w : World) : World × Outcome :=
  let w := w.emit (Event.log "[INFO][freeipa] Creating Host: %s" w.d.id)
  match callClient cfg w with
  | (w, .error err) => (w, Outcome.returned (some err))
  | (w, .ok client) =>
    let fqdn := w.d.fqdn
    let description := w.d.description
    let random := w.d.random
    let userpassword := w.d.userpassword
    let force := w.d.force
    let optArgs : HostAddOptionalArgs :=
      { Description := some description, Random := some random, Force := some force,
        Userpassword := none }
    let optArgs :=
      if userpassword ≠ "" then { optArgs with Userpassword := some userpassword } else optArgs
    let w := w.emit (Event.hostAdd fqdn optArgs)
    match client.HostAdd fqdn optArgs with
    | .error err => (w, Outcome.returned (some err))
    | .ok res =>
      let w := w.SetId fqdn
      match setRandompassword res w with
      | none => (w, Outcome.nilDeref)
      | some w => createRetryLoop cfg fuel (1 * Second) w

/-- The function `resourceFreeIPAHostUpdate`. -/
def resourceFreeIPAHostUpdate (cfg : Config) (w : World) : World × Outcome :=
  let w := w.emit (Event.log "[INFO] Updating Host: %s" w.d.id)
  match callClient cfg w with
  | (w, .error err) => (w, Outcome.returned (some err))
  | (w, .ok client) =>
    let fqdn := w.d.fqdn
    let description := w.d.description
    let random := w.d.random
    let userpassword := w.d.userpassword
    let optArgs : HostModOptionalArgs :=
      { Description := some description, Random := some random, Userpassword := none }
    let optArgs :=
      if userpassword ≠ "" then { optArgs with Userpassword := some userpassword } else optArgs
    let w := w.emit (Event.hostMod fqdn optArgs)
    match client.HostMod fqdn optArgs with
    | .error err => (w, Outcome.returned (some err))
    | .ok res =>
      match setRandompassword res w with
      | none => (w, Outcome.nilDeref)
      | some w =>
        match resourceFreeIPAHostRead cfg w with
        | (w, err) => (w, Outcome.returned err)

/-- The function `resourceFreeIPAHostDelete`. -/
def resourceFreeIPAHostDelete (cfg : Config) (w : World) : World × Option Error :=
  let w := w.emit (Event.log "[INFO] Deleting Host: %s" w.d.id)
  match callClient cfg w with
  | (w, .error err) => (w, some err)
  | (w, .ok client) =>
    let fqdn := w.d.fqdn
    let w := w.emit (Event.hostDel [fqdn])
    match client.HostDel [fqdn] with
    | .error err => (w, some err)
    | .ok _ => (w.SetId "", none)

/-- The function `resourceFreeIPAHostImport`: the list it returns and the error. -/
def resourceFreeIPAHostImport (cfg : Config) (w : World) :
    World × List ResourceData × Option Error :=
  let w := w.SetId w.d.id
  let w := { w with d := { w.d with fqdn := w.d.id } }
  match resourceFreeIPAHostRead cfg w with
  | (w, some err) => (w, [], some err)
  | (w, none) => (w, [w.d], none)

/-! ## Observations on traces and on the remote -/

/-- Whether the `Read` attempt that makes factory call number `n` fails when the record's
fqdn is `fqdn`: the factory fails, or the handle's `HostShow` does. -/
def readFails (cfg : Config) (n : Nat) (fqdn : String) : Bool :=
  match cfg n with
  | .error _ => true
  | .ok client =>
    match client.HostShow fqdn with
    | .error _ => true
    | .ok _ => false

/-- Is this event the log line that opens `resourceFreeIPAHostRead`? -/
def Event.isRead : Event → Bool
  | Event.log format _ => format == "[INFO] Refreshing Host: %s"
  | _ => false

/-- Number of `Read` attempts recorded in a trace. -/
def readAttempts (t : List Event) : Nat := t.countP Event.isRead

/-- The calls of `time.Sleep` in a trace, in order: each with the number of `Read` attempts
begun before it (counting from `n`) and the duration it was passed. -/
def sleepLog : Nat → List Event → List (Nat × Int)
  | _, [] => []
  | n, Event.sleep d :: t => (n, d) :: sleepLog n t
  | n, e :: t => sleepLog (if e.isRead then n + 1 else n) t

/-- Is this event a remote write (`HostAdd`, `HostMod` or `HostDel`)? -/
def Event.isWrite : Event → Bool
  | Event.hostAdd _ _ => true
  | Event.hostMod _ _ => true
  | Event.hostDel _ => true
  | _ => false

/-- The value of `sleepDelay` after `n` executions of `sleepDelay = sleepDelay * 2`. -/
def backoff : Nat → Int → Int
  | 0, d => d
  | n + 1, d => backoff n (wrapInt64 (d * 2))

/-- The sleep log of a loop that is entered with delay `delay` after `n` earlier `Read`
attempts and sees its first `k` attempts fail. -/
def backoffs (n k : Nat) (delay : Int) : List (Nat × Int) :=
  (List.range k).map (fun i => (n + i + 1, backoff i delay))

/-- The optional arguments `Create` builds from a record. -/
def addArgsOf (d : ResourceData) : HostAddOptionalArgs :=
  { Description := some d.description, Random := some d.random, Force := some d.force,
    Userpassword := if d.userpassword = "" then none else some d.userpassword }

/-- The optional arguments `Update` builds from a record. -/
def modArgsOf (d : ResourceData) : HostModOptionalArgs :=
  { Description := some d.description, Random := some d.random,
    Userpassword := if d.userpassword = "" then none else some d.userpassword }

/-- The record after a successful `Read` that received `res`. -/
def readInto (d : ResourceData) (res : Host) : ResourceData :=
  { d with description := res.Description.getD d.description,
           userpassword := res.Userpassword.getD d.userpassword }

/-! ## States along the callbacks -/

/-- The world `Create`, `Update` and `Delete` are in once their factory call is made. -/
def afterFactory (w : World) (format : String) : World :=
  { w with clientCalls := w.clientCalls + 1,
           trace := w.trace ++ [Event.log format w.d.id, Event.factory] }

/-- The world `Create` is in once `HostAdd` has succeeded and `d.SetId(fqdn)` is done. -/
def afterAdd (w : World) : World :=
  ((afterFactory w "[INFO][freeipa] Creating Host: %s").emit
    (Event.hostAdd w.d.fqdn (addArgsOf w.d))).SetId w.d.fqdn

/-- The call `d.Set("randompassword", v)`. -/
def World.setRandompassword (w : World) (v : String) : World :=
  { w with d := { w.d with randompassword := v } }

/-- The world `Update` is in once `HostMod` has been called. -/
def afterMod (w : World) : World :=
  (afterFactory w "[INFO] Updating Host: %s").emit (Event.hostMod w.d.fqdn (modArgsOf w.d))

/-- The world `Delete` is in once `HostDel` has been called. -/
def afterDel (w : World) : World :=
  (afterFactory w "[INFO] Deleting Host: %s").emit (Event.hostDel [w.d.fqdn])

/-- The world `Import` hands to `Read`: identifier kept, `fqdn` set to it. -/
def seeded (w : World) : World :=
  { w with d := { w.d with fqdn := w.d.id } }

/-! ## Concrete remotes used to run the callbacks -/

/-- A handle whose four operations all succeed; `HostShow` returns the host `h`, the two
writes return `h` too. -/
def okClient (h : Host) : Client :=
  { HostAdd := fun _ _ => .ok h
    HostMod := fun _ _ => .ok h
    HostShow := fun _ => .ok h
    HostDel := fun _ => .ok () }

/-- A handle whose four operations all fail with `e`. -/
def failClient (e : Error) : Client :=
  { HostAdd := fun _ _ => .error e
    HostMod := fun _ _ => .error e
    HostShow := fun _ => .error e
    HostDel := fun _ => .error e }

/-- A record as Terraform hands it to `Create`: no identifier yet. -/
def rec0 : ResourceData :=
  { id := "", fqdn := "a.test", description := "d1", random := false, userpassword := "p1",
    randompassword := "", force := false }

/-- A fresh world around a record. -/
def World.init (d : ResourceData) : World := { d := d, clientCalls := 0, trace := [] }

/-- A factory whose every handle succeeds and answers `h`. -/
def cfgOk (h : Host) : Config := fun _ => .ok (okClient h)

/-- A factory whose handles all fail with `e`. -/
def cfgRemoteDown (e : Error) : Config := fun _ => .ok (failClient e)

/-- A handle on a replica that does not have the host yet: `HostShow` answers not-found. -/
def staleClient (h : Host) : Client :=
  { okClient h with HostShow := fun _ => .error "NotFound (4001)" }

/-- A factory behind a load balancer: the first call reaches a server on which every
operation succeeds, the next `k` calls reach replicas without the host, the later ones
reach servers that have it. -/
def cfgLag (k : Nat) (h : Host) : Config :=
  fun n => if n = 0 then .ok (okClient h) else if n ≤ k then .ok (staleClient h)
    else .ok (okClient h)

/-- A record that asks for a generated password. -/
def recRandom : ResourceData := { rec0 with random := true }

/-- A factory that fails on its second call only. -/
def cfgAuthOnce (h : Host) : Config :=
  fun n => if n = 1 then .error "auth" else .ok (okClient h)

/-- A factory that always fails. -/
def cfgDown (e : Error) : Config := fun _ => .error e

/-- A record that holds a random password from an earlier write. -/
def recStale : ResourceData :=
  { id := "a.test", fqdn := "a.test", description := "d1", random := true, userpassword := "",
    randompassword := "old-otp", force := false }

/-- What Terraform hands to `Import`: only the identifier is filled in. -/
def recImport : ResourceData :=
  { id := "host1.example.com", fqdn := "", description := "", random := false,
    userpassword := "", randompassword := "", force := false }

/-- A record under management: the identifier equals `fqdn`. -/
def recManaged : ResourceData :=
  { id := "a.test", fqdn := "a.test", description := "d1", random := false,
    userpassword := "p1", randompassword := "", force := false }

/-! ## Lemmas on traces and on `Read` -/

/-- The number of `Read` attempts is additive over traces. -/
theorem readAttempts_append (a b : List Event) :
    readAttempts (a ++ b) = readAttempts a + readAttempts b := by
  simp [readAttempts, List.countP_append]

/-- The sleep log of a trace in two parts: the second part counts on from the `Read`
attempts of the first. -/
theorem sleepLog_append (a b : List Event) : ∀ n : Nat,
    sleepLog n (a ++ b) = sleepLog n a ++ sleepLog (n + readAttempts a) b := by
  induction a with
  | nil => intro n; simp [sleepLog, readAttempts]
  | cons e t ih =>
    intro n
    cases e with
    | sleep d => simp [sleepLog, ih, readAttempts, Event.isRead]
    | log f a =>
      by_cases hf : (Event.log f a).isRead = true
      · simp [sleepLog, ih, readAttempts, hf, List.countP_cons, Nat.add_assoc, Nat.add_comm 1]
      · simp [sleepLog, ih, readAttempts, hf, List.countP_cons]
    | factory => simp [sleepLog, ih, readAttempts, Event.isRead]
    | hostAdd _ _ => simp [sleepLog, ih, readAttempts, Event.isRead]
    | hostMod _ _ => simp [sleepLog, ih, readAttempts, Event.isRead]
    | hostShow _ => simp [sleepLog, ih, readAttempts, Event.isRead]
    | hostDel _ => simp [sleepLog, ih, readAttempts, Event.isRead]

/-- First way through `Read`: the factory fails. -/
theorem read_factory_error (cfg : Config) (w : World) (e : Error)
    (h : cfg w.clientCalls = .error e) :
    resourceFreeIPAHostRead cfg w =
      ({ w with clientCalls := w.clientCalls + 1,
                trace := w.trace ++ [Event.log "[INFO] Refreshing Host: %s" w.d.id,
                                     Event.factory] }, some e) := by
  simp [resourceFreeIPAHostRead, callClient, World.emit, h]

/-- Second way through `Read`: `HostShow` fails. -/
theorem read_show_error (cfg : Config) (w : World) (c : Client) (e : Error)
    (h : cfg w.clientCalls = .ok c) (hs : c.HostShow w.d.fqdn = .error e) :
    resourceFreeIPAHostRead cfg w =
      ({ w with clientCalls := w.clientCalls + 1,
                trace := w.trace ++ [Event.log "[INFO] Refreshing Host: %s" w.d.id,
                                     Event.factory, Event.hostShow w.d.fqdn] }, some e) := by
  simp [resourceFreeIPAHostRead, callClient, World.emit, h, hs]

/-- Third way through `Read`: `HostShow` succeeds and the two attributes are copied. -/
theorem read_show_ok (cfg : Config) (w : World) (c : Client) (res : Host)
    (h : cfg w.clientCalls = .ok c) (hs : c.HostShow w.d.fqdn = .ok res) :
    resourceFreeIPAHostRead cfg w =
      ({ d := readInto w.d res, clientCalls := w.clientCalls + 1,
         trace := w.trace ++ [Event.log "[INFO] Refreshing Host: %s" w.d.id,
                              Event.factory, Event.hostShow w.d.fqdn] }, none) := by
  simp only [resourceFreeIPAHostRead, callClient, World.emit, h, hs, readInto]
  cases res.Description <;> cases res.Userpassword <;> simp

/-- Every `Read` goes one of the three ways. -/
theorem read_cases (cfg : Config) (w : World) :
    (∃ e, cfg w.clientCalls = .error e) ∨
    (∃ c e, cfg w.clientCalls = .ok c ∧ c.HostShow w.d.fqdn = .error e) ∨
    (∃ c res, cfg w.clientCalls = .ok c ∧ c.HostShow w.d.fqdn = .ok res) := by
  cases h : cfg w.clientCalls with
  | error e => exact Or.inl ⟨e, rfl⟩
  | ok c =>
    cases hs : c.HostShow w.d.fqdn with
    | error e => exact Or.inr (Or.inl ⟨c, e, rfl, hs⟩)
    | ok res => exact Or.inr (Or.inr ⟨c, res, rfl, hs⟩)

/-- What every `Read` leaves alone, and what it always adds. -/
theorem read_frame (cfg : Config) (w : World) :
    (resourceFreeIPAHostRead cfg w).1.d.id = w.d.id ∧
    (resourceFreeIPAHostRead cfg w).1.d.fqdn = w.d.fqdn ∧
    (resourceFreeIPAHostRead cfg w).1.d.random = w.d.random ∧
    (resourceFreeIPAHostRead cfg w).1.d.force = w.d.force ∧
    (resourceFreeIPAHostRead cfg w).1.d.randompassword = w.d.randompassword ∧
    (resourceFreeIPAHostRead cfg w).1.clientCalls = w.clientCalls + 1 ∧
    readAttempts (resourceFreeIPAHostRead cfg w).1.trace = readAttempts w.trace + 1 ∧
    (∀ n, sleepLog n (resourceFreeIPAHostRead cfg w).1.trace = sleepLog n w.trace) ∧
    (∃ rest, (resourceFreeIPAHostRead cfg w).1.trace = w.trace ++ rest ∧
      ∀ e ∈ rest, e.isWrite = false) := by
  rcases read_cases cfg w with ⟨e, h⟩ | ⟨c, e, h, hs⟩ | ⟨c, res, h, hs⟩
  · rw [read_factory_error cfg w e h]
    simp [readAttempts_append, sleepLog_append, readAttempts, sleepLog, Event.isRead, Event.isWrite]
  · rw [read_show_error cfg w c e h hs]
    simp [readAttempts_append, sleepLog_append, readAttempts, sleepLog, Event.isRead, Event.isWrite]
  · rw [read_show_ok cfg w c res h hs]
    simp [readAttempts_append, sleepLog_append, readAttempts, sleepLog, Event.isRead, Event.isWrite,
      readInto]

/-- The attempt succeeds exactly when `readFails` says it does not fail. -/
theorem read_fails_iff (cfg : Config) (w : World) :
    (resourceFreeIPAHostRead cfg w).2 = none ↔ readFails cfg w.clientCalls w.d.fqdn = false := by
  rcases read_cases cfg w with ⟨e, h⟩ | ⟨c, e, h, hs⟩ | ⟨c, res, h, hs⟩
  · rw [read_factory_error cfg w e h]; simp [readFails, h]
  · rw [read_show_error cfg w c e h hs]; simp [readFails, h, hs]
  · rw [read_show_ok cfg w c res h hs]; simp [readFails, h, hs]

/-! ## Lemmas on durations -/

/-- Doubling a wrapped value wraps to the same as doubling the value. -/
theorem wrapInt64_double (x : Int) : wrapInt64 (wrapInt64 x * 2) = wrapInt64 (x * 2) := by
  unfold wrapInt64
  norm_num
  omega

/-- A value inside the signed 64-bit range is its own wrap. -/
theorem wrapInt64_of_range (x : Int) (h1 : -2 ^ 63 ≤ x) (h2 : x < 2 ^ 63) : wrapInt64 x = x := by
  unfold wrapInt64
  norm_num at h1 h2 ⊢
  omega

/-- A wrapped value lies in the signed 64-bit range. -/
theorem wrapInt64_range (x : Int) : -2 ^ 63 ≤ wrapInt64 x ∧ wrapInt64 x < 2 ^ 63 := by
  unfold wrapInt64
  norm_num
  omega

/-- Closed form of `n` doublings of a wrapped value. -/
theorem backoff_wrap (n : Nat) : ∀ y : Int, backoff n (wrapInt64 y) = wrapInt64 (y * 2 ^ n) := by
  induction n with
  | zero => intro y; simp [backoff]
  | succ n ih =>
    intro y
    rw [backoff, wrapInt64_double, ih, pow_succ]
    congr 1; ring

/-- The delay after `n` doublings is the 64-bit wrap of `2^n` seconds. -/
theorem backoff_second (n : Nat) : backoff n Second = wrapInt64 (Second * 2 ^ n) := by
  have h : Second = wrapInt64 Second := by
    rw [wrapInt64_of_range] <;> norm_num [Second]
  conv_lhs => rw [h]
  exact backoff_wrap n Second

/-- Up to 33 doublings nothing overflows. -/
theorem wrap_second_small (n : Nat) (h : n ≤ 33) :
    wrapInt64 (Second * 2 ^ n) = 2 ^ n * Second := by
  have hp : (2 : Int) ^ n ≤ 2 ^ 33 := pow_le_pow_right₀ (by norm_num) h
  have hpos : (0 : Int) < 2 ^ n := by positivity
  rw [wrapInt64_of_range, mul_comm]
  · unfold Second; nlinarith
  · unfold Second; norm_num at hp ⊢; nlinarith

/-- From 55 doublings on the delay is zero. -/
theorem wrap_second_large (n : Nat) (h : 55 ≤ n) : wrapInt64 (Second * 2 ^ n) = 0 := by
  obtain ⟨m, rfl⟩ := Nat.exists_eq_add_of_le h
  have : Second * 2 ^ (55 + m) = (2 ^ 64 : Int) * (1953125 * 2 ^ m) := by
    unfold Second; rw [pow_add]; ring
  rw [this]
  unfold wrapInt64
  rw [Int.add_comm, Int.add_mul_emod_self_left]
  norm_num

/-- The sleep log of `k + 1` failures: the first sleep, then the log of `k` failures
entered with the doubled delay. -/
theorem backoffs_succ (n k : Nat) (delay : Int) :
    backoffs n (k + 1) delay = (n + 1, delay) :: backoffs (n + 1) k (wrapInt64 (delay * 2)) := by
  simp [backoffs, List.range_succ_eq_map, backoff, Function.comp_def]
  intro a _; omega

/-- Closed form of the sleep log of `k` failures entered with one second. -/
theorem backoffs_closed (n k : Nat) :
    backoffs n k Second =
      (List.range k).map (fun i => (n + i + 1, wrapInt64 (Second * 2 ^ i))) := by
  simp [backoffs, backoff_second]

/-! ## Lemmas on the retry loop -/

/-- The retry loop never ends with an error and never crashes. -/
theorem loop_outcome (cfg : Config) (fuel : Nat) : ∀ (delay : Int) (w : World),
    (createRetryLoop cfg fuel delay w).2 = Outcome.returned none ∨
    (createRetryLoop cfg fuel delay w).2 = Outcome.running := by
  induction fuel with
  | zero => intro delay w; right; rfl
  | succ n ih =>
    intro delay w
    rw [createRetryLoop]
    rcases hr : resourceFreeIPAHostRead cfg w with ⟨w1, _ | e⟩
    · left; rfl
    · exact ih _ _

/-- The loop leaves the identifier and every attribute `Read` does not write alone. -/
theorem loop_frame (cfg : Config) (fuel : Nat) : ∀ (delay : Int) (w : World),
    (createRetryLoop cfg fuel delay w).1.d.id = w.d.id ∧
    (createRetryLoop cfg fuel delay w).1.d.fqdn = w.d.fqdn ∧
    (createRetryLoop cfg fuel delay w).1.d.random = w.d.random ∧
    (createRetryLoop cfg fuel delay w).1.d.force = w.d.force ∧
    (createRetryLoop cfg fuel delay w).1.d.randompassword = w.d.randompassword := by
  induction fuel with
  | zero => intro delay w; simp [createRetryLoop]
  | succ n ih =>
    intro delay w
    have hf := read_frame cfg w
    rw [createRetryLoop]
    rcases hr : resourceFreeIPAHostRead cfg w with ⟨w1, _ | e⟩
    · rw [hr] at hf; simpa using ⟨hf.1, hf.2.1, hf.2.2.1, hf.2.2.2.1, hf.2.2.2.2.1⟩
    · rw [hr] at hf
      have := ih (wrapInt64 (delay * 2)) (w1.emit (Event.sleep delay))
      simp only [World.emit] at this ⊢
      simp only [this]
      simpa using ⟨hf.1, hf.2.1, hf.2.2.1, hf.2.2.2.1, hf.2.2.2.2.1⟩

/-- The retry loop only appends to the trace, and nothing it appends is a remote write. -/
theorem loop_trace (cfg : Config) (fuel : Nat) : ∀ (delay : Int) (w : World),
    ∃ rest, (createRetryLoop cfg fuel delay w).1.trace = w.trace ++ rest ∧
      ∀ e ∈ rest, e.isWrite = false := by
  induction fuel with
  | zero => intro delay w; exact ⟨[], by simp [createRetryLoop]⟩
  | succ n ih =>
    intro delay w
    obtain ⟨rest1, h1, hw1⟩ := (read_frame cfg w).2.2.2.2.2.2.2.2
    rw [createRetryLoop]
    rcases hr : resourceFreeIPAHostRead cfg w with ⟨w1, _ | e⟩
    · rw [hr] at h1; exact ⟨rest1, h1, hw1⟩
    · rw [hr] at h1
      obtain ⟨rest2, h2, hw2⟩ := ih (wrapInt64 (delay * 2)) (w1.emit (Event.sleep delay))
      refine ⟨rest1 ++ [Event.sleep delay] ++ rest2, ?_, ?_⟩
      · simp only at h1 ⊢
        rw [h2]; simp [World.emit, h1]
      · intro e he
        simp only [List.mem_append, List.mem_singleton] at he
        rcases he with (he | he) | he
        · exact hw1 e he
        · rw [he]; rfl
        · exact hw2 e he

/-- While `Read` keeps failing the loop keeps going: after `k` failed attempts it has slept
`k` times, the `i`-th sleep coming after the `i`-th failed attempt with the delay
`backoff (i - 1) delay`, and it goes on with what is left of the fuel. -/
theorem loop_failures (cfg : Config) (k : Nat) : ∀ (fuel : Nat) (delay : Int) (w : World),
    (∀ j, j < k → readFails cfg (w.clientCalls + j) w.d.fqdn = true) →
    ∃ w1 : World,
      createRetryLoop cfg (k + fuel) delay w = createRetryLoop cfg fuel (backoff k delay) w1 ∧
      w1.d.fqdn = w.d.fqdn ∧
      w1.clientCalls = w.clientCalls + k ∧
      readAttempts w1.trace = readAttempts w.trace + k ∧
      sleepLog 0 w1.trace = sleepLog 0 w.trace ++ backoffs (readAttempts w.trace) k delay ∧
      (∃ rest, w1.trace = w.trace ++ rest ∧ ∀ e ∈ rest, e.isWrite = false) ∧
      w1.d.id = w.d.id := by
  induction k with
  | zero => intro fuel delay w _; exact ⟨w, by simp [backoff, backoffs]⟩
  | succ k ih =>
    intro fuel delay w hfail
    have hf := read_frame cfg w
    have h0 : (resourceFreeIPAHostRead cfg w).2 ≠ none := by
      rw [Ne, read_fails_iff]; simpa using hfail 0 (Nat.succ_pos k)
    rcases hr : resourceFreeIPAHostRead cfg w with ⟨w1, _ | e⟩
    · rw [hr] at h0; exact absurd rfl h0
    · rw [hr] at hf
      obtain ⟨hid, hfq, _, _, _, hcc, hra, hsl, rest1, hrest1, hw1⟩ := hf
      simp only at hid hfq hcc hra hsl hrest1
      obtain ⟨w2, heq, h1, h2, h3, h4, ⟨rest2, hrest2, hw2⟩, h5⟩ :=
        ih fuel (wrapInt64 (delay * 2)) (w1.emit (Event.sleep delay)) (by
          intro j hj
          have := hfail (j + 1) (Nat.succ_lt_succ hj)
          simpa [World.emit, hfq, hcc, Nat.add_assoc, Nat.add_comm 1 j] using this)
      have e1 : (w1.emit (Event.sleep delay)).clientCalls = w1.clientCalls := rfl
      have e2 : readAttempts (w1.emit (Event.sleep delay)).trace = readAttempts w1.trace := by
        simp [World.emit, readAttempts_append, readAttempts, Event.isRead]
      have e3 : sleepLog 0 (w1.emit (Event.sleep delay)).trace =
          sleepLog 0 w1.trace ++ [(readAttempts w.trace + 1, delay)] := by
        simp [World.emit, sleepLog_append, sleepLog, hra]
      have e4 : (w1.emit (Event.sleep delay)).d = w1.d := rfl
      refine ⟨w2, ?_, ?_, ?_, ?_, ?_, ?_, by rw [h5, e4, hid]⟩
      · rw [show k + 1 + fuel = (k + fuel) + 1 by omega, createRetryLoop, hr]
        simpa [backoff] using heq
      · rw [h1, e4, hfq]
      · rw [h2, e1, hcc]; omega
      · rw [h3, e2, hra]; omega
      · rw [h4, e3, hsl, backoffs_succ, e2, hra]; simp
      · refine ⟨rest1 ++ [Event.sleep delay] ++ rest2, ?_, ?_⟩
        · rw [hrest2]; simp [World.emit, hrest1]
        · intro e he
          simp only [List.mem_append, List.mem_singleton] at he
          rcases he with (he | he) | he
          · exact hw1 e he
          · rw [he]; rfl
          · exact hw2 e he

/-- A loop whose first `k` attempts fail and whose next attempt succeeds returns nil after
`k + 1` attempts and `k` sleeps, given fuel for `k + 1` attempts. -/
theorem loop_absorbs (cfg : Config) (k fuel : Nat) (delay : Int) (w : World)
    (hfail : ∀ j, j < k → readFails cfg (w.clientCalls + j) w.d.fqdn = true)
    (hok : readFails cfg (w.clientCalls + k) w.d.fqdn = false) (hfuel : k < fuel) :
    (createRetryLoop cfg fuel delay w).2 = Outcome.returned none ∧
    readAttempts (createRetryLoop cfg fuel delay w).1.trace = readAttempts w.trace + (k + 1) ∧
    sleepLog 0 (createRetryLoop cfg fuel delay w).1.trace =
      sleepLog 0 w.trace ++ backoffs (readAttempts w.trace) k delay := by
  obtain ⟨w1, heq, hfq, hcc, hra, hsl, _⟩ := loop_failures cfg k (fuel - k - 1 + 1) delay w hfail
  rw [show k + (fuel - k - 1 + 1) = fuel by omega, createRetryLoop] at heq
  have hf := read_frame cfg w1
  have hnone : (resourceFreeIPAHostRead cfg w1).2 = none := by
    rw [read_fails_iff, hcc, hfq]; exact hok
  rcases hr : resourceFreeIPAHostRead cfg w1 with ⟨w2, _ | e⟩
  · rw [hr] at heq hf
    obtain ⟨_, _, _, _, _, _, hra2, hsl2, _⟩ := hf
    simp only at heq hra2 hsl2
    rw [heq]
    refine ⟨rfl, ?_, ?_⟩
    · simp only [hra2, hra]; omega
    · simp only [hsl2, hsl]
  · rw [hr] at hnone; simp at hnone

/-- Every `Read` opens with its log line and its factory call. -/
theorem read_trace_head (cfg : Config) (w : World) :
    ∃ rest, (resourceFreeIPAHostRead cfg w).1.trace =
      w.trace ++ [Event.log "[INFO] Refreshing Host: %s" w.d.id, Event.factory] ++ rest := by
  rcases read_cases cfg w with ⟨e, h⟩ | ⟨c, e, h, hs⟩ | ⟨c, res, h, hs⟩
  · rw [read_factory_error cfg w e h]; exact ⟨[], by simp⟩
  · rw [read_show_error cfg w c e h hs]; exact ⟨[Event.hostShow w.d.fqdn], by simp⟩
  · rw [read_show_ok cfg w c res h hs]; exact ⟨[Event.hostShow w.d.fqdn], by simp⟩

/-- The retry loop never lowers the count of factory calls. -/
theorem loop_clientCalls_le (cfg : Config) (fuel : Nat) : ∀ (delay : Int) (w : World),
    w.clientCalls ≤ (createRetryLoop cfg fuel delay w).1.clientCalls := by
  induction fuel with
  | zero => intro delay w; simp [createRetryLoop]
  | succ n ih =>
    intro delay w
    have hf := (read_frame cfg w).2.2.2.2.2.1
    rw [createRetryLoop]
    rcases hr : resourceFreeIPAHostRead cfg w with ⟨w1, _ | e⟩
    · rw [hr] at hf; simp only at hf ⊢; omega
    · rw [hr] at hf
      have := ih (wrapInt64 (delay * 2)) (w1.emit (Event.sleep delay))
      have e1 : (w1.emit (Event.sleep delay)).clientCalls = w1.clientCalls := rfl
      simp only at hf ⊢
      omega

/-- A loop with fuel left opens with a `Read`: its log line and its factory call. -/
theorem loop_head (cfg : Config) (fuel : Nat) (delay : Int) (w : World) :
    (∃ rest, (createRetryLoop cfg (fuel + 1) delay w).1.trace =
      w.trace ++ [Event.log "[INFO] Refreshing Host: %s" w.d.id, Event.factory] ++ rest) ∧
    w.clientCalls + 1 ≤ (createRetryLoop cfg (fuel + 1) delay w).1.clientCalls := by
  obtain ⟨rest1, h1⟩ := read_trace_head cfg w
  have hf := (read_frame cfg w).2.2.2.2.2.1
  rw [createRetryLoop]
  rcases hr : resourceFreeIPAHostRead cfg w with ⟨w1, _ | e⟩
  · rw [hr] at h1 hf
    exact ⟨⟨rest1, h1⟩, by simp only at hf ⊢; omega⟩
  · rw [hr] at h1 hf
    simp only at h1 hf ⊢
    obtain ⟨rest2, h2, _⟩ := loop_trace cfg fuel (wrapInt64 (delay * 2))
      (w1.emit (Event.sleep delay))
    have h3 := loop_clientCalls_le cfg fuel (wrapInt64 (delay * 2)) (w1.emit (Event.sleep delay))
    have e1 : (w1.emit (Event.sleep delay)).clientCalls = w1.clientCalls := rfl
    refine ⟨⟨rest1 ++ [Event.sleep delay] ++ rest2, ?_⟩, by omega⟩
    rw [h2]; simp [World.emit, h1]

/-- A factory failure inside the loop is retried. If the first `j` attempts fail and the
factory call of attempt `j + 1` fails, then, given fuel for one more attempt, the loop
sleeps for `backoff j delay` right after the failed factory call (no `HostShow` is made on
that attempt) and opens a new `Read`, which calls the factory again. -/
theorem loop_retries_factory_failure (cfg : Config) (j fuel : Nat) (delay : Int) (w : World)
    (e : Error)
    (hfail : ∀ i, i < j → readFails cfg (w.clientCalls + i) w.d.fqdn = true)
    (herr : cfg (w.clientCalls + j) = .error e) (hfuel : j + 2 ≤ fuel) :
    (∃ pre post, (createRetryLoop cfg fuel delay w).1.trace =
      pre ++ [Event.log "[INFO] Refreshing Host: %s" w.d.id, Event.factory,
              Event.sleep (backoff j delay),
              Event.log "[INFO] Refreshing Host: %s" w.d.id, Event.factory] ++ post ∧
      readAttempts pre = readAttempts w.trace + j ∧
      sleepLog 0 pre = sleepLog 0 w.trace ++ backoffs (readAttempts w.trace) j delay) ∧
    w.clientCalls + j + 2 ≤ (createRetryLoop cfg fuel delay w).1.clientCalls := by
  obtain ⟨w1, heq, _, hcc, hra, hsl, _, hid⟩ :=
    loop_failures cfg j (fuel - j - 2 + 1 + 1) delay w hfail
  rw [show j + (fuel - j - 2 + 1 + 1) = fuel by omega] at heq
  have herr1 : cfg w1.clientCalls = .error e := by rw [hcc]; exact herr
  rw [heq, createRetryLoop, read_factory_error cfg w1 e herr1]
  simp only
  obtain ⟨⟨rest, hrest⟩, hle⟩ := loop_head cfg (fuel - j - 2) (wrapInt64 (backoff j delay * 2))
    (World.emit { w1 with clientCalls := w1.clientCalls + 1,
                          trace := w1.trace ++
                            [Event.log "[INFO] Refreshing Host: %s" w1.d.id, Event.factory] }
      (Event.sleep (backoff j delay)))
  refine ⟨⟨w1.trace, rest, ?_, hra, hsl⟩, ?_⟩
  · rw [hrest]; simp [World.emit, hid]
  · simp only [World.emit] at hle ⊢; omega

/-! ## The paths through `Create`, `Update`, `Delete` and `Import` -/

/-- Path of `Create` on which the factory fails. -/
theorem create_factory_error (cfg : Config) (fuel : Nat) (w : World) (e : Error)
    (h : cfg w.clientCalls = .error e) :
    resourceFreeIPAHostCreate cfg fuel w =
      (afterFactory w "[INFO][freeipa] Creating Host: %s", Outcome.returned (some e)) := by
  simp [resourceFreeIPAHostCreate, callClient, World.emit, h, afterFactory]

/-- Path of `Create` on which `HostAdd` fails. -/
theorem create_add_error (cfg : Config) (fuel : Nat) (w : World) (c : Client) (e : Error)
    (h : cfg w.clientCalls = .ok c) (ha : c.HostAdd w.d.fqdn (addArgsOf w.d) = .error e) :
    resourceFreeIPAHostCreate cfg fuel w =
      ((afterFactory w "[INFO][freeipa] Creating Host: %s").emit
        (Event.hostAdd w.d.fqdn (addArgsOf w.d)), Outcome.returned (some e)) := by
  unfold addArgsOf at ha
  by_cases hp : w.d.userpassword = "" <;>
    simp_all [resourceFreeIPAHostCreate, callClient, World.emit, afterFactory, addArgsOf]

/-- Path of `Create` on which `random` is set and the response has no `Randompassword`. -/
theorem create_add_ok_nil (cfg : Config) (fuel : Nat) (w : World) (c : Client) (res : Host)
    (h : cfg w.clientCalls = .ok c) (ha : c.HostAdd w.d.fqdn (addArgsOf w.d) = .ok res)
    (hr : w.d.random = true) (hn : res.Randompassword = none) :
    resourceFreeIPAHostCreate cfg fuel w = (afterAdd w, Outcome.nilDeref) := by
  unfold addArgsOf at ha
  by_cases hp : w.d.userpassword = "" <;>
    simp_all [resourceFreeIPAHostCreate, callClient, World.emit, afterFactory, addArgsOf,
      World.SetId, afterAdd, setRandompassword]

/-- Path of `Create` on which `random` is set and the response has a `Randompassword`. -/
theorem create_add_ok_some (cfg : Config) (fuel : Nat) (w : World) (c : Client) (res : Host)
    (v : String)
    (h : cfg w.clientCalls = .ok c) (ha : c.HostAdd w.d.fqdn (addArgsOf w.d) = .ok res)
    (hr : w.d.random = true) (hn : res.Randompassword = some v) :
    resourceFreeIPAHostCreate cfg fuel w =
      createRetryLoop cfg fuel Second ((afterAdd w).setRandompassword v) := by
  unfold addArgsOf at ha
  by_cases hp : w.d.userpassword = "" <;>
    simp_all [resourceFreeIPAHostCreate, callClient, World.emit, afterFactory, addArgsOf,
      World.SetId, afterAdd, setRandompassword, World.setRandompassword]

/-- Path of `Create` on which `random` is not set. -/
theorem create_add_ok_plain (cfg : Config) (fuel : Nat) (w : World) (c : Client) (res : Host)
    (h : cfg w.clientCalls = .ok c) (ha : c.HostAdd w.d.fqdn (addArgsOf w.d) = .ok res)
    (hr : w.d.random = false) :
    resourceFreeIPAHostCreate cfg fuel w = createRetryLoop cfg fuel Second (afterAdd w) := by
  unfold addArgsOf at ha
  by_cases hp : w.d.userpassword = "" <;>
    simp_all [resourceFreeIPAHostCreate, callClient, World.emit, afterFactory, addArgsOf,
      World.SetId, afterAdd, setRandompassword]

/-- Path of `Update` on which the factory fails. -/
theorem update_factory_error (cfg : Config) (w : World) (e : Error)
    (h : cfg w.clientCalls = .error e) :
    resourceFreeIPAHostUpdate cfg w =
      (afterFactory w "[INFO] Updating Host: %s", Outcome.returned (some e)) := by
  simp [resourceFreeIPAHostUpdate, callClient, World.emit, h, afterFactory]

/-- Path of `Update` on which `HostMod` fails. -/
theorem update_mod_error (cfg : Config) (w : World) (c : Client) (e : Error)
    (h : cfg w.clientCalls = .ok c) (hm : c.HostMod w.d.fqdn (modArgsOf w.d) = .error e) :
    resourceFreeIPAHostUpdate cfg w = (afterMod w, Outcome.returned (some e)) := by
  unfold modArgsOf at hm
  by_cases hp : w.d.userpassword = "" <;>
    simp_all [resourceFreeIPAHostUpdate, callClient, World.emit, afterFactory, modArgsOf,
      afterMod]

/-- Path of `Update` on which `random` is set and the response has no `Randompassword`. -/
theorem update_mod_ok_nil (cfg : Config) (w : World) (c : Client) (res : Host)
    (h : cfg w.clientCalls = .ok c) (hm : c.HostMod w.d.fqdn (modArgsOf w.d) = .ok res)
    (hr : w.d.random = true) (hn : res.Randompassword = none) :
    resourceFreeIPAHostUpdate cfg w = (afterMod w, Outcome.nilDeref) := by
  unfold modArgsOf at hm
  by_cases hp : w.d.userpassword = "" <;>
    simp_all [resourceFreeIPAHostUpdate, callClient, World.emit, afterFactory, modArgsOf,
      afterMod, setRandompassword]

/-- Path of `Update` on which `random` is set and the response has a `Randompassword`. -/
theorem update_mod_ok_some (cfg : Config) (w : World) (c : Client) (res : Host) (v : String)
    (h : cfg w.clientCalls = .ok c) (hm : c.HostMod w.d.fqdn (modArgsOf w.d) = .ok res)
    (hr : w.d.random = true) (hn : res.Randompassword = some v) :
    resourceFreeIPAHostUpdate cfg w =
      ((resourceFreeIPAHostRead cfg ((afterMod w).setRandompassword v)).1,
        Outcome.returned (resourceFreeIPAHostRead cfg ((afterMod w).setRandompassword v)).2) := by
  unfold modArgsOf at hm
  by_cases hp : w.d.userpassword = "" <;>
    simp_all [resourceFreeIPAHostUpdate, callClient, World.emit, afterFactory, modArgsOf,
      afterMod, setRandompassword, World.setRandompassword]

/-- Path of `Update` on which `random` is not set. -/
theorem update_mod_ok_plain (cfg : Config) (w : World) (c : Client) (res : Host)
    (h : cfg w.clientCalls = .ok c) (hm : c.HostMod w.d.fqdn (modArgsOf w.d) = .ok res)
    (hr : w.d.random = false) :
    resourceFreeIPAHostUpdate cfg w =
      ((resourceFreeIPAHostRead cfg (afterMod w)).1,
        Outcome.returned (resourceFreeIPAHostRead cfg (afterMod w)).2) := by
  unfold modArgsOf at hm
  by_cases hp : w.d.userpassword = "" <;>
    simp_all [resourceFreeIPAHostUpdate, callClient, World.emit, afterFactory, modArgsOf,
      afterMod, setRandompassword]

/-- Path of `Delete` on which the factory fails. -/
theorem delete_factory_error (cfg : Config) (w : World) (e : Error)
    (h : cfg w.clientCalls = .error e) :
    resourceFreeIPAHostDelete cfg w = (afterFactory w "[INFO] Deleting Host: %s", some e) := by
  simp [resourceFreeIPAHostDelete, callClient, World.emit, h, afterFactory]

/-- Path of `Delete` on which `HostDel` fails. -/
theorem delete_del_error (cfg : Config) (w : World) (c : Client) (e : Error)
    (h : cfg w.clientCalls = .ok c) (hd : c.HostDel [w.d.fqdn] = .error e) :
    resourceFreeIPAHostDelete cfg w = (afterDel w, some e) := by
  simp [resourceFreeIPAHostDelete, callClient, World.emit, h, hd, afterFactory, afterDel]

/-- Path of `Delete` on which `HostDel` succeeds. -/
theorem delete_del_ok (cfg : Config) (w : World) (c : Client) (u : Unit)
    (h : cfg w.clientCalls = .ok c) (hd : c.HostDel [w.d.fqdn] = .ok u) :
    resourceFreeIPAHostDelete cfg w = ((afterDel w).SetId "", none) := by
  simp [resourceFreeIPAHostDelete, callClient, World.emit, h, hd, afterFactory, afterDel]

/-- Path of `Import` on which `Read` fails. -/
theorem import_read_error (cfg : Config) (w : World) (e : Error)
    (h : (resourceFreeIPAHostRead cfg (seeded w)).2 = some e) :
    resourceFreeIPAHostImport cfg w = ((resourceFreeIPAHostRead cfg (seeded w)).1, [], some e) := by
  unfold resourceFreeIPAHostImport
  have : (w.SetId w.d.id) = w := rfl
  simp only [this]
  change (match resourceFreeIPAHostRead cfg (seeded w) with
    | (w, some err) => (w, [], some err)
    | (w, none) => (w, [w.d], none)) = _
  rcases hr : resourceFreeIPAHostRead cfg (seeded w) with ⟨w1, _ | e1⟩
  · rw [hr] at h; simp at h
  · rw [hr] at h; simp at h; simp [h]

/-- Path of `Import` on which `Read` succeeds. -/
theorem import_read_ok (cfg : Config) (w : World)
    (h : (resourceFreeIPAHostRead cfg (seeded w)).2 = none) :
    resourceFreeIPAHostImport cfg w =
      ((resourceFreeIPAHostRead cfg (seeded w)).1,
        [(resourceFreeIPAHostRead cfg (seeded w)).1.d], none) := by
  unfold resourceFreeIPAHostImport
  have : (w.SetId w.d.id) = w := rfl
  simp only [this]
  change (match resourceFreeIPAHostRead cfg (seeded w) with
    | (w, some err) => (w, [], some err)
    | (w, none) => (w, [w.d], none)) = _
  rcases hr : resourceFreeIPAHostRead cfg (seeded w) with ⟨w1, _ | e1⟩
  · simp
  · rw [hr] at h; simp at h

/-- The identifier `Create` leaves once `HostAdd` has succeeded, however the rest goes. -/
theorem create_id_after_add (cfg : Config) (fuel : Nat) (w : World) (c : Client) (res : Host)
    (h : cfg w.clientCalls = .ok c) (ha : c.HostAdd w.d.fqdn (addArgsOf w.d) = .ok res) :
    (resourceFreeIPAHostCreate cfg fuel w).1.d.id = w.d.fqdn ∧
    (resourceFreeIPAHostCreate cfg fuel w).1.d.fqdn = w.d.fqdn := by
  cases hr : w.d.random with
  | false =>
    rw [create_add_ok_plain cfg fuel w c res h ha hr]
    have := loop_frame cfg fuel Second (afterAdd w)
    exact ⟨this.1, this.2.1⟩
  | true =>
    cases hn : res.Randompassword with
    | none => rw [create_add_ok_nil cfg fuel w c res h ha hr hn]; exact ⟨rfl, rfl⟩
    | some v =>
      rw [create_add_ok_some cfg fuel w c res v h ha hr hn]
      have := loop_frame cfg fuel Second ((afterAdd w).setRandompassword v)
      exact ⟨this.1, this.2.1⟩

/-- Once `HostAdd` has succeeded `Create` never returns an error: it returns nil, crashes on
the nil `Randompassword`, or is still retrying. -/
theorem create_outcome_after_add (cfg : Config) (fuel : Nat) (w : World) (c : Client)
    (res : Host) (h : cfg w.clientCalls = .ok c)
    (ha : c.HostAdd w.d.fqdn (addArgsOf w.d) = .ok res) (e : Error) :
    (resourceFreeIPAHostCreate cfg fuel w).2 ≠ Outcome.returned (some e) := by
  rcases Bool.eq_false_or_eq_true w.d.random with hr | hr
  · cases hn : res.Randompassword with
    | none => rw [create_add_ok_nil cfg fuel w c res h ha hr hn]; simp
    | some v =>
      rw [create_add_ok_some cfg fuel w c res v h ha hr hn]
      rcases loop_outcome cfg fuel Second ((afterAdd w).setRandompassword v) with h1 | h1 <;>
        simp [h1]
  · rw [create_add_ok_plain cfg fuel w c res h ha hr]
    rcases loop_outcome cfg fuel Second (afterAdd w) with h1 | h1 <;> simp [h1]

/-- While the first `n` attempts fail, the sleep log of `Create` starts with the `n` sleeps
of the back-off, whatever comes after. -/
theorem create_sleep_prefix (cfg : Config) (fuel n : Nat) (w : World) (c : Client)
    (res : Host) (h : cfg w.clientCalls = .ok c)
    (ha : c.HostAdd w.d.fqdn (addArgsOf w.d) = .ok res)
    (hderef : w.d.random = false ∨ res.Randompassword ≠ none)
    (hfail : ∀ j, j < n → readFails cfg (w.clientCalls + 1 + j) w.d.fqdn = true)
    (hfuel : n ≤ fuel) :
    ∃ more, sleepLog 0 (resourceFreeIPAHostCreate cfg fuel w).1.trace =
      sleepLog 0 w.trace ++ backoffs (readAttempts w.trace) n Second ++ more := by
  have key : ∀ w1 : World, w1.d.fqdn = w.d.fqdn → w1.clientCalls = w.clientCalls + 1 →
      readAttempts w1.trace = readAttempts w.trace → sleepLog 0 w1.trace = sleepLog 0 w.trace →
      resourceFreeIPAHostCreate cfg fuel w = createRetryLoop cfg fuel Second w1 →
      ∃ more, sleepLog 0 (resourceFreeIPAHostCreate cfg fuel w).1.trace =
        sleepLog 0 w.trace ++ backoffs (readAttempts w.trace) n Second ++ more := by
    intro w1 hfq hcc hra hsl heq
    obtain ⟨w2, hloop, _, _, _, hsl2, _⟩ := loop_failures cfg n (fuel - n) Second w1
      (by rw [hcc, hfq]; exact hfail)
    rw [show n + (fuel - n) = fuel by omega] at hloop
    obtain ⟨rest, hrest, _⟩ := loop_trace cfg (fuel - n) (backoff n Second) w2
    refine ⟨sleepLog (0 + readAttempts w2.trace) rest, ?_⟩
    rw [heq, hloop, hrest, sleepLog_append, hsl2, hsl, hra]
  have hbase : readAttempts (afterAdd w).trace = readAttempts w.trace ∧
      sleepLog 0 (afterAdd w).trace = sleepLog 0 w.trace := by
    simp [afterAdd, afterFactory, World.emit, World.SetId, readAttempts_append,
      sleepLog_append, readAttempts, sleepLog, Event.isRead]
  rcases Bool.eq_false_or_eq_true w.d.random with hr | hr
  · cases hn : res.Randompassword with
    | none => rcases hderef with hd | hd
              · rw [hr] at hd; cases hd
              · exact absurd hn hd
    | some v =>
      exact key ((afterAdd w).setRandompassword v) rfl rfl hbase.1 hbase.2
        (create_add_ok_some cfg fuel w c res v h ha hr hn)
  · exact key (afterAdd w) rfl rfl hbase.1 hbase.2
      (create_add_ok_plain cfg fuel w c res h ha hr)

/-- The callback `Update` never touches the identifier or `fqdn`. -/
theorem update_id_fqdn (cfg : Config) (w : World) :
    (resourceFreeIPAHostUpdate cfg w).1.d.id = w.d.id ∧
    (resourceFreeIPAHostUpdate cfg w).1.d.fqdn = w.d.fqdn := by
  cases h : cfg w.clientCalls with
  | error e => rw [update_factory_error cfg w e h]; exact ⟨rfl, rfl⟩
  | ok c =>
    cases hm : c.HostMod w.d.fqdn (modArgsOf w.d) with
    | error e => rw [update_mod_error cfg w c e h hm]; exact ⟨rfl, rfl⟩
    | ok res =>
      rcases Bool.eq_false_or_eq_true w.d.random with hr | hr
      · cases hn : res.Randompassword with
        | none => rw [update_mod_ok_nil cfg w c res h hm hr hn]; exact ⟨rfl, rfl⟩
        | some v =>
          rw [update_mod_ok_some cfg w c res v h hm hr hn]
          have := read_frame cfg ((afterMod w).setRandompassword v)
          exact ⟨this.1, this.2.1⟩
      · rw [update_mod_ok_plain cfg w c res h hm hr]
        have := read_frame cfg (afterMod w)
        exact ⟨this.1, this.2.1⟩

/-! ## C1: the identifier and the remote write -/

/-- C1. The identifier changes only on a successful remote write. `Create`: once `HostAdd`
has succeeded the identifier is the record's fqdn (whatever happens later, for every fuel);
if `HostAdd` fails with `e`, `Create` returns exactly `e`, the record is untouched and the
trace holds the log line, the factory call and the `HostAdd` call only, so no `Read` was
made. `Delete`: if `HostDel` succeeds the identifier is the empty string and `Delete`
returns nil; if `HostDel` fails with `e`, it returns exactly `e` and the record is
untouched. -/
theorem identifier_changes_only_on_successful_write (cfg : Config) (fuel : Nat) (w : World)
    (c : Client) (h : cfg w.clientCalls = .ok c) :
    (∀ res, c.HostAdd w.d.fqdn (addArgsOf w.d) = .ok res →
      (resourceFreeIPAHostCreate cfg fuel w).1.d.id = w.d.fqdn) ∧
    (∀ e, c.HostAdd w.d.fqdn (addArgsOf w.d) = .error e →
      (resourceFreeIPAHostCreate cfg fuel w).2 = Outcome.returned (some e) ∧
      (resourceFreeIPAHostCreate cfg fuel w).1.d = w.d ∧
      (resourceFreeIPAHostCreate cfg fuel w).1.trace =
        w.trace ++ [Event.log "[INFO][freeipa] Creating Host: %s" w.d.id, Event.factory,
                    Event.hostAdd w.d.fqdn (addArgsOf w.d)] ∧
      readAttempts (resourceFreeIPAHostCreate cfg fuel w).1.trace = readAttempts w.trace) ∧
    (∀ u, c.HostDel [w.d.fqdn] = .ok u →
      (resourceFreeIPAHostDelete cfg w).2 = none ∧
      (resourceFreeIPAHostDelete cfg w).1.d = { w.d with id := "" }) ∧
    (∀ e, c.HostDel [w.d.fqdn] = .error e →
      (resourceFreeIPAHostDelete cfg w).2 = some e ∧
      (resourceFreeIPAHostDelete cfg w).1.d = w.d) := by
  refine ⟨?_, ?_, ?_, ?_⟩
  · intro res ha
    exact (create_id_after_add cfg fuel w c res h ha).1
  · intro e ha
    rw [create_add_error cfg fuel w c e h ha]
    simp [afterFactory, World.emit, readAttempts_append, readAttempts, Event.isRead]
  · intro u hd
    rw [delete_del_ok cfg w c u h hd]
    simp [afterDel, afterFactory, World.emit, World.SetId]
  · intro e hd
    rw [delete_del_error cfg w c e h hd]
    simp [afterDel, afterFactory, World.emit]

/-- C1, run on `a.test`: against a remote that accepts everything `Create` sets the
identifier to `a.test` and `Delete` clears it; against a remote that fails every operation
with `boom`, `Create` returns `boom` with the record untouched and `Delete` keeps the
identifier. -/
theorem identifier_changes_only_on_successful_write_witness :
    (resourceFreeIPAHostCreate (cfgOk ⟨none, none, none⟩) 1 (World.init rec0)).1.d.id = "a.test" ∧
    ((resourceFreeIPAHostCreate (cfgRemoteDown "boom") 1 (World.init rec0)).2
        = Outcome.returned (some "boom") ∧
      (resourceFreeIPAHostCreate (cfgRemoteDown "boom") 1 (World.init rec0)).1.d = rec0) ∧
    (resourceFreeIPAHostDelete (cfgOk ⟨none, none, none⟩)
        (World.init { rec0 with id := "a.test" })).1.d.id = "" ∧
    (resourceFreeIPAHostDelete (cfgRemoteDown "boom")
        (World.init { rec0 with id := "a.test" })).1.d.id = "a.test" :=
  ⟨(identifier_changes_only_on_successful_write (cfgOk ⟨none, none, none⟩) 1 (World.init rec0)
      (okClient ⟨none, none, none⟩) rfl).1 ⟨none, none, none⟩ rfl,
   let t := (identifier_changes_only_on_successful_write (cfgRemoteDown "boom") 1
      (World.init rec0) (failClient "boom") rfl).2.1 "boom" rfl
   ⟨t.1, t.2.1⟩,
   congrArg ResourceData.id ((identifier_changes_only_on_successful_write (cfgOk ⟨none, none, none⟩) 1
      (World.init { rec0 with id := "a.test" }) (okClient ⟨none, none, none⟩) rfl).2.2.1 () rfl).2,
   congrArg ResourceData.id ((identifier_changes_only_on_successful_write (cfgRemoteDown "boom") 1
      (World.init { rec0 with id := "a.test" }) (failClient "boom") rfl).2.2.2 "boom" rfl).2⟩

/-! ## C2: the arguments of the remote write -/

/-- C2. The arguments of the remote write. When the factory call of `Create` succeeds, the
next thing `Create` does is call `HostAdd` with primary argument fqdn and optional arguments
`description`, `random` and `force` present with the record's values and `userpassword`
present exactly when the record's is not the empty string (then equal to it), and nothing it
does afterwards is a remote write. `Update` does the same with `HostMod`, whose optional
arguments are `description`, `random` and `userpassword` under the same rule: they have no
`force` component, and `Update` makes no other write that could carry one. -/
theorem write_arguments (cfg : Config) (fuel : Nat) (w : World) (c : Client)
    (h : cfg w.clientCalls = .ok c) :
    (∃ (optArgs : HostAddOptionalArgs) (rest : List Event),
      (resourceFreeIPAHostCreate cfg fuel w).1.trace =
        w.trace ++ [Event.log "[INFO][freeipa] Creating Host: %s" w.d.id, Event.factory,
                    Event.hostAdd w.d.fqdn optArgs] ++ rest ∧
      (∀ e ∈ rest, e.isWrite = false) ∧
      optArgs.Description = some w.d.description ∧
      optArgs.Random = some w.d.random ∧
      optArgs.Force = some w.d.force ∧
      (w.d.userpassword = "" → optArgs.Userpassword = none) ∧
      (w.d.userpassword ≠ "" → optArgs.Userpassword = some w.d.userpassword)) ∧
    (∃ (optArgs : HostModOptionalArgs) (rest : List Event),
      (resourceFreeIPAHostUpdate cfg w).1.trace =
        w.trace ++ [Event.log "[INFO] Updating Host: %s" w.d.id, Event.factory,
                    Event.hostMod w.d.fqdn optArgs] ++ rest ∧
      (∀ e ∈ rest, e.isWrite = false) ∧
      optArgs.Description = some w.d.description ∧
      optArgs.Random = some w.d.random ∧
      (w.d.userpassword = "" → optArgs.Userpassword = none) ∧
      (w.d.userpassword ≠ "" → optArgs.Userpassword = some w.d.userpassword)) := by
  constructor
  · refine ⟨addArgsOf w.d, ?_⟩
    have hargs : (addArgsOf w.d).Description = some w.d.description ∧
        (addArgsOf w.d).Random = some w.d.random ∧ (addArgsOf w.d).Force = some w.d.force ∧
        (w.d.userpassword = "" → (addArgsOf w.d).Userpassword = none) ∧
        (w.d.userpassword ≠ "" → (addArgsOf w.d).Userpassword = some w.d.userpassword) := by
      refine ⟨rfl, rfl, rfl, ?_, ?_⟩ <;> intro hp <;> simp [addArgsOf, hp]
    have hbase : (afterAdd w).trace =
        w.trace ++ [Event.log "[INFO][freeipa] Creating Host: %s" w.d.id, Event.factory,
                    Event.hostAdd w.d.fqdn (addArgsOf w.d)] := by
      simp [afterAdd, afterFactory, World.emit, World.SetId]
    cases ha : c.HostAdd w.d.fqdn (addArgsOf w.d) with
    | error e =>
      refine ⟨[], ?_, by simp, hargs⟩
      rw [create_add_error cfg fuel w c e h ha]
      simp [afterFactory, World.emit]
    | ok res =>
      rcases Bool.eq_false_or_eq_true w.d.random with hr | hr
      swap
      ·
        obtain ⟨rest, h1, h2⟩ := loop_trace cfg fuel Second (afterAdd w)
        refine ⟨rest, ?_, h2, hargs⟩
        rw [create_add_ok_plain cfg fuel w c res h ha hr, h1, hbase]
      · cases hn : res.Randompassword with
        | none =>
          refine ⟨[], ?_, by simp, hargs⟩
          rw [create_add_ok_nil cfg fuel w c res h ha hr hn, hbase]; simp
        | some v =>
          obtain ⟨rest, h1, h2⟩ :=
            loop_trace cfg fuel Second ((afterAdd w).setRandompassword v)
          refine ⟨rest, ?_, h2, hargs⟩
          rw [create_add_ok_some cfg fuel w c res v h ha hr hn, h1]
          simp [World.setRandompassword, hbase]
  · refine ⟨modArgsOf w.d, ?_⟩
    have hargs : (modArgsOf w.d).Description = some w.d.description ∧
        (modArgsOf w.d).Random = some w.d.random ∧
        (w.d.userpassword = "" → (modArgsOf w.d).Userpassword = none) ∧
        (w.d.userpassword ≠ "" → (modArgsOf w.d).Userpassword = some w.d.userpassword) := by
      refine ⟨rfl, rfl, ?_, ?_⟩ <;> intro hp <;> simp [modArgsOf, hp]
    have hbase : (afterMod w).trace =
        w.trace ++ [Event.log "[INFO] Updating Host: %s" w.d.id, Event.factory,
                    Event.hostMod w.d.fqdn (modArgsOf w.d)] := by
      simp [afterMod, afterFactory, World.emit]
    cases hm : c.HostMod w.d.fqdn (modArgsOf w.d) with
    | error e =>
      refine ⟨[], ?_, by simp, hargs⟩
      rw [update_mod_error cfg w c e h hm, hbase]; simp
    | ok res =>
      rcases Bool.eq_false_or_eq_true w.d.random with hr | hr
      swap
      ·
        obtain ⟨rest, h1, h2⟩ := (read_frame cfg (afterMod w)).2.2.2.2.2.2.2.2
        refine ⟨rest, ?_, h2, hargs⟩
        rw [update_mod_ok_plain cfg w c res h hm hr]
        simp only [h1, hbase]
      · cases hn : res.Randompassword with
        | none =>
          refine ⟨[], ?_, by simp, hargs⟩
          rw [update_mod_ok_nil cfg w c res h hm hr hn, hbase]; simp
        | some v =>
          obtain ⟨rest, h1, h2⟩ :=
            (read_frame cfg ((afterMod w).setRandompassword v)).2.2.2.2.2.2.2.2
          refine ⟨rest, ?_, h2, hargs⟩
          rw [update_mod_ok_some cfg w c res v h hm hr hn]
          simp only [h1]
          simp [World.setRandompassword, hbase]

/-- C2, run on the scenario of the specification: `Create` of `a.test` with description
`d1`, `random = false`, user password `p1`, `force = false` sends exactly these to
`HostAdd`. -/
theorem write_arguments_witness :
    cfgOk ⟨some "d1", some "p1", none⟩ 0 = .ok (okClient ⟨some "d1", some "p1", none⟩) ∧
    ∃ (optArgs : HostAddOptionalArgs) (rest : List Event),
      (resourceFreeIPAHostCreate (cfgOk ⟨some "d1", some "p1", none⟩) 1
        (World.init rec0)).1.trace =
        [] ++ [Event.log "[INFO][freeipa] Creating Host: %s" "", Event.factory,
               Event.hostAdd "a.test" optArgs] ++ rest ∧
      (∀ e ∈ rest, e.isWrite = false) ∧
      optArgs.Description = some "d1" ∧
      optArgs.Random = some false ∧
      optArgs.Force = some false ∧
      ("p1" = "" → optArgs.Userpassword = none) ∧
      ("p1" ≠ "" → optArgs.Userpassword = some "p1") :=
  ⟨rfl, (write_arguments (cfgOk ⟨some "d1", some "p1", none⟩) 1 (World.init rec0)
    (okClient ⟨some "d1", some "p1", none⟩) rfl).1⟩

/-! ## C3: the retry loop absorbs failed reads -/

/-- C3 (amended). `Create` absorbs every failed `Read`. Let `HostAdd` have succeeded and the
copy of the random password not crash (`random` is false, or the response carries a
`Randompassword`). If the first `k` `Read` attempts fail (attempt `j` makes factory call
number `clientCalls + 1 + j`) and attempt `k + 1` succeeds, then with fuel for `k + 1`
attempts `Create` returns nil after exactly `k + 1` `Read` attempts and exactly `k` sleeps,
the `i`-th sleep coming after the `i`-th attempt; with `k = 1` the one sleep is of
1 second and stands between the first and the second attempt. And for every fuel, `Create`
does not return an error once `HostAdd` has succeeded. -/
theorem create_absorbs_failed_reads (cfg : Config) (fuel k : Nat) (w : World) (c : Client)
    (res : Host) (h : cfg w.clientCalls = .ok c)
    (ha : c.HostAdd w.d.fqdn (addArgsOf w.d) = .ok res)
    (hderef : w.d.random = false ∨ res.Randompassword ≠ none)
    (hfail : ∀ j, j < k → readFails cfg (w.clientCalls + 1 + j) w.d.fqdn = true)
    (hok : readFails cfg (w.clientCalls + 1 + k) w.d.fqdn = false)
    (hfuel : k < fuel) :
    (resourceFreeIPAHostCreate cfg fuel w).2 = Outcome.returned none ∧
    readAttempts (resourceFreeIPAHostCreate cfg fuel w).1.trace
      = readAttempts w.trace + (k + 1) ∧
    sleepLog 0 (resourceFreeIPAHostCreate cfg fuel w).1.trace
      = sleepLog 0 w.trace ++ backoffs (readAttempts w.trace) k Second ∧
    (sleepLog 0 (resourceFreeIPAHostCreate cfg fuel w).1.trace).length
      = (sleepLog 0 w.trace).length + k ∧
    (k = 1 → sleepLog 0 (resourceFreeIPAHostCreate cfg fuel w).1.trace
      = sleepLog 0 w.trace ++ [(readAttempts w.trace + 1, 1000000000)]) ∧
    (∀ (fuel1 : Nat) (e : Error),
      (resourceFreeIPAHostCreate cfg fuel1 w).2 ≠ Outcome.returned (some e)) := by
  have key : ∀ w1 : World, w1.d.fqdn = w.d.fqdn → w1.clientCalls = w.clientCalls + 1 →
      readAttempts w1.trace = readAttempts w.trace → sleepLog 0 w1.trace = sleepLog 0 w.trace →
      resourceFreeIPAHostCreate cfg fuel w = createRetryLoop cfg fuel Second w1 →
      (resourceFreeIPAHostCreate cfg fuel w).2 = Outcome.returned none ∧
      readAttempts (resourceFreeIPAHostCreate cfg fuel w).1.trace
        = readAttempts w.trace + (k + 1) ∧
      sleepLog 0 (resourceFreeIPAHostCreate cfg fuel w).1.trace
        = sleepLog 0 w.trace ++ backoffs (readAttempts w.trace) k Second := by
    intro w1 hfq hcc hra hsl heq
    have := loop_absorbs cfg k fuel Second w1 (by rw [hcc, hfq]; exact hfail)
      (by rw [hcc, hfq]; exact hok) hfuel
    rw [heq, ← hra, ← hsl]; exact this
  have hbase : readAttempts (afterAdd w).trace = readAttempts w.trace ∧
      sleepLog 0 (afterAdd w).trace = sleepLog 0 w.trace := by
    simp [afterAdd, afterFactory, World.emit, World.SetId, readAttempts_append,
      sleepLog_append, readAttempts, sleepLog, Event.isRead]
  have main : (resourceFreeIPAHostCreate cfg fuel w).2 = Outcome.returned none ∧
      readAttempts (resourceFreeIPAHostCreate cfg fuel w).1.trace
        = readAttempts w.trace + (k + 1) ∧
      sleepLog 0 (resourceFreeIPAHostCreate cfg fuel w).1.trace
        = sleepLog 0 w.trace ++ backoffs (readAttempts w.trace) k Second := by
    rcases Bool.eq_false_or_eq_true w.d.random with hr | hr
    · cases hn : res.Randompassword with
      | none => rcases hderef with hd | hd
                · rw [hr] at hd; cases hd
                · exact absurd hn hd
      | some v =>
        exact key ((afterAdd w).setRandompassword v) rfl rfl hbase.1 hbase.2
          (create_add_ok_some cfg fuel w c res v h ha hr hn)
    · exact key (afterAdd w) rfl rfl hbase.1 hbase.2
        (create_add_ok_plain cfg fuel w c res h ha hr)
  obtain ⟨m1, m2, m3⟩ := main
  refine ⟨m1, m2, m3, ?_, ?_, ?_⟩
  · rw [m3]; simp [backoffs]
  · intro hk; rw [m3, hk]; simp [backoffs, backoff, Second, List.range_succ]
  · intro fuel1 e
    exact create_outcome_after_add cfg fuel1 w c res h ha e

/-- C3, run on the scenario of the specification: the `Read` that follows `HostAdd` fails
once with not-found, the next one succeeds; `Create` returns nil after 2 `Read` attempts and
one sleep of 1 second, which comes after the first attempt. -/
theorem create_absorbs_failed_reads_witness :
    readFails (cfgLag 1 ⟨none, none, none⟩) 1 "a.test" = true ∧
    readFails (cfgLag 1 ⟨none, none, none⟩) 2 "a.test" = false ∧
    (resourceFreeIPAHostCreate (cfgLag 1 ⟨none, none, none⟩) 2 (World.init rec0)).2
      = Outcome.returned none ∧
    readAttempts (resourceFreeIPAHostCreate (cfgLag 1 ⟨none, none, none⟩) 2
      (World.init rec0)).1.trace = 2 ∧
    sleepLog 0 (resourceFreeIPAHostCreate (cfgLag 1 ⟨none, none, none⟩) 2
      (World.init rec0)).1.trace = [(1, 1000000000)] :=
  have hfail : ∀ j, j < 1 → readFails (cfgLag 1 ⟨none, none, none⟩) (0 + 1 + j) "a.test" = true := by
    decide
  have t := create_absorbs_failed_reads (cfgLag 1 ⟨none, none, none⟩) 2 1 (World.init rec0)
    (okClient ⟨none, none, none⟩) ⟨none, none, none⟩ rfl rfl (Or.inl rfl) hfail rfl (by decide)
  ⟨rfl, rfl, t.1, t.2.1, t.2.2.2.2.1 rfl⟩

/-- C3, as stated, fails: `HostAdd` succeeds and every `Read` would succeed (`k = 0`), but
the record has `random = true` and the response carries no `Randompassword`: `Create` stops
at the nil dereference, does not return nil and makes no `Read` attempt at all. -/
theorem create_absorbs_failed_reads_counterexample :
    cfgLag 0 ⟨none, none, none⟩ 0 = .ok (okClient ⟨none, none, none⟩) ∧
    (okClient ⟨none, none, none⟩).HostAdd recRandom.fqdn (addArgsOf recRandom)
      = .ok ⟨none, none, none⟩ ∧
    readFails (cfgLag 0 ⟨none, none, none⟩) 1 "a.test" = false ∧
    (resourceFreeIPAHostCreate (cfgLag 0 ⟨none, none, none⟩) 8 (World.init recRandom)).2
      = Outcome.nilDeref ∧
    (resourceFreeIPAHostCreate (cfgLag 0 ⟨none, none, none⟩) 8 (World.init recRandom)).2
      ≠ Outcome.returned none ∧
    readAttempts (resourceFreeIPAHostCreate (cfgLag 0 ⟨none, none, none⟩) 8
      (World.init recRandom)).1.trace = 0 := by
  refine ⟨rfl, rfl, rfl, rfl, ?_, rfl⟩
  decide

/-! ## C4: the retry delay -/

/-- C4 (amended). The retry delay doubles with no cap in the code, inside a signed 64-bit
count of nanoseconds. Let `HostAdd` have succeeded, the copy of the random password not
crash, and the first `n ≥ 1` `Read` attempts fail, with fuel for `n` attempts. Then the
sleep after the `n`-th failed attempt is passed the 64-bit wrap of `10^9 * 2^(n-1)`
nanoseconds. For `n ≤ 34` that is exactly `2^(n-1)` seconds, and up to there each delay is
smaller than the next; every delay lies in `[-2^63, 2^63)`, and from `n = 56` on it is 0. -/
theorem retry_delay_doubles_until_overflow (cfg : Config) (fuel n : Nat) (w : World)
    (c : Client) (res : Host) (h : cfg w.clientCalls = .ok c)
    (ha : c.HostAdd w.d.fqdn (addArgsOf w.d) = .ok res)
    (hderef : w.d.random = false ∨ res.Randompassword ≠ none)
    (hn : 1 ≤ n)
    (hfail : ∀ j, j < n → readFails cfg (w.clientCalls + 1 + j) w.d.fqdn = true)
    (hfuel : n ≤ fuel) :
    (sleepLog 0 (resourceFreeIPAHostCreate cfg fuel w).1.trace)[(sleepLog 0 w.trace).length
        + (n - 1)]? = some (readAttempts w.trace + n, wrapInt64 (Second * 2 ^ (n - 1))) ∧
    (n ≤ 34 → wrapInt64 (Second * 2 ^ (n - 1)) = 2 ^ (n - 1) * Second) ∧
    (n < 34 → wrapInt64 (Second * 2 ^ (n - 1)) < wrapInt64 (Second * 2 ^ n)) ∧
    (-2 ^ 63 ≤ wrapInt64 (Second * 2 ^ (n - 1)) ∧ wrapInt64 (Second * 2 ^ (n - 1)) < 2 ^ 63) ∧
    (56 ≤ n → wrapInt64 (Second * 2 ^ (n - 1)) = 0) := by
  refine ⟨?_, ?_, ?_, wrapInt64_range _, ?_⟩
  · obtain ⟨more, hmore⟩ := create_sleep_prefix cfg fuel n w c res h ha hderef hfail hfuel
    rw [hmore, backoffs_closed, List.append_assoc, List.getElem?_append_right (by omega)]
    rw [List.getElem?_append_left (by simp; omega)]
    simp
    exact ⟨n - 1, by rw [List.getElem?_range (by omega)], by omega, rfl⟩
  · intro h34; exact wrap_second_small (n - 1) (by omega)
  · intro h34
    rw [wrap_second_small (n - 1) (by omega), wrap_second_small n (by omega)]
    have : n = (n - 1) + 1 := by omega
    conv_rhs => rw [this, pow_succ]
    have hpos : (0 : Int) < 2 ^ (n - 1) := by positivity
    unfold Second; nlinarith
  · intro h56; exact wrap_second_large (n - 1) (by omega)

/-- C4, run with two failed `Read` attempts: the sleep after the second one is of
2 seconds. -/
theorem retry_delay_doubles_until_overflow_witness :
    readFails (cfgLag 2 ⟨none, none, none⟩) 1 "a.test" = true ∧
    readFails (cfgLag 2 ⟨none, none, none⟩) 2 "a.test" = true ∧
    (sleepLog 0 (resourceFreeIPAHostCreate (cfgLag 2 ⟨none, none, none⟩) 2
      (World.init rec0)).1.trace)[1]? = some (2, 2000000000) :=
  have hfail : ∀ j, j < 2 → readFails (cfgLag 2 ⟨none, none, none⟩) (0 + 1 + j) "a.test" = true := by
    decide
  ⟨rfl, rfl, (retry_delay_doubles_until_overflow (cfgLag 2 ⟨none, none, none⟩) 2 2 (World.init rec0)
    (okClient ⟨none, none, none⟩) ⟨none, none, none⟩ rfl rfl (Or.inl rfl) (by decide) hfail
    (by decide)).1⟩

/-- C4, as stated, fails at `n = 35`: against a remote on which `HostAdd` succeeds and the
first 35 `Read` attempts fail, the sleep after the 35th failed attempt is passed
`-1266874889709551616` nanoseconds, which is not `2^34` seconds and is less than the
delay before it. -/
theorem retry_delay_counterexample :
    (sleepLog 0 (resourceFreeIPAHostCreate (cfgLag 35 ⟨none, none, none⟩) 35
      (World.init rec0)).1.trace)[34]? = some (35, -1266874889709551616) ∧
    (sleepLog 0 (resourceFreeIPAHostCreate (cfgLag 35 ⟨none, none, none⟩) 35
      (World.init rec0)).1.trace)[33]? = some (34, 8589934592000000000) ∧
    (-1266874889709551616 : Int) ≠ 2 ^ 34 * Second ∧
    (-1266874889709551616 : Int) < 8589934592000000000 := by
  refine ⟨by rfl, by rfl, by decide, by decide⟩

/-! ## C5: failures of the client factory -/

/-- C5 (amended). A failure of the factory call that opens a callback is surfaced at once:
`Create`, `Read`, `Update` and `Delete` (and `Import`, through the `Read` it delegates to)
return that error after the one factory call, with the record as it was (for `Import`: with
`fqdn` set to the identifier) and no remote call. The same holds for the factory call of the
`Read` that ends `Update`: it is the second and last factory call and nothing follows it.
Inside the retry loop of `Create` the failure is absorbed like any other `Read` error: once
`HostAdd` has succeeded `Create` returns no error at all; and if, after `j` failed `Read`
attempts, the factory call of attempt `j + 1` fails, then (given fuel for one more attempt)
that attempt makes no `HostShow`, `Create` sleeps for the delay of round `j + 1` and opens
a new `Read`, which calls the factory again. -/
theorem factory_failure_surfaced (cfg : Config) (fuel : Nat) (w : World) (e : Error) :
    (cfg w.clientCalls = .error e →
      resourceFreeIPAHostCreate cfg fuel w =
        ({ d := w.d, clientCalls := w.clientCalls + 1,
           trace := w.trace ++ [Event.log "[INFO][freeipa] Creating Host: %s" w.d.id,
                                Event.factory] }, Outcome.returned (some e)) ∧
      resourceFreeIPAHostRead cfg w =
        ({ d := w.d, clientCalls := w.clientCalls + 1,
           trace := w.trace ++ [Event.log "[INFO] Refreshing Host: %s" w.d.id,
                                Event.factory] }, some e) ∧
      resourceFreeIPAHostUpdate cfg w =
        ({ d := w.d, clientCalls := w.clientCalls + 1,
           trace := w.trace ++ [Event.log "[INFO] Updating Host: %s" w.d.id,
                                Event.factory] }, Outcome.returned (some e)) ∧
      resourceFreeIPAHostDelete cfg w =
        ({ d := w.d, clientCalls := w.clientCalls + 1,
           trace := w.trace ++ [Event.log "[INFO] Deleting Host: %s" w.d.id,
                                Event.factory] }, some e) ∧
      resourceFreeIPAHostImport cfg w =
        ({ d := { w.d with fqdn := w.d.id }, clientCalls := w.clientCalls + 1,
           trace := w.trace ++ [Event.log "[INFO] Refreshing Host: %s" w.d.id,
                                Event.factory] }, [], some e)) ∧
    (∀ (c : Client) (res : Host), cfg w.clientCalls = .ok c →
      c.HostMod w.d.fqdn (modArgsOf w.d) = .ok res →
      (w.d.random = false ∨ res.Randompassword ≠ none) →
      cfg (w.clientCalls + 1) = .error e →
      (resourceFreeIPAHostUpdate cfg w).2 = Outcome.returned (some e) ∧
      (resourceFreeIPAHostUpdate cfg w).1.clientCalls = w.clientCalls + 2 ∧
      (resourceFreeIPAHostUpdate cfg w).1.trace =
        w.trace ++ [Event.log "[INFO] Updating Host: %s" w.d.id, Event.factory,
                    Event.hostMod w.d.fqdn (modArgsOf w.d),
                    Event.log "[INFO] Refreshing Host: %s" w.d.id, Event.factory]) ∧
    (∀ (c : Client) (res : Host), cfg w.clientCalls = .ok c →
      c.HostAdd w.d.fqdn (addArgsOf w.d) = .ok res →
      (resourceFreeIPAHostCreate cfg fuel w).2 ≠ Outcome.returned (some e)) ∧
    (∀ (c : Client) (res : Host) (j : Nat), cfg w.clientCalls = .ok c →
      c.HostAdd w.d.fqdn (addArgsOf w.d) = .ok res →
      (w.d.random = false ∨ res.Randompassword ≠ none) →
      (∀ i, i < j → readFails cfg (w.clientCalls + 1 + i) w.d.fqdn = true) →
      cfg (w.clientCalls + 1 + j) = .error e →
      j + 2 ≤ fuel →
      (∃ pre post, (resourceFreeIPAHostCreate cfg fuel w).1.trace =
        pre ++ [Event.log "[INFO] Refreshing Host: %s" w.d.fqdn, Event.factory,
                Event.sleep (backoff j Second),
                Event.log "[INFO] Refreshing Host: %s" w.d.fqdn, Event.factory] ++ post ∧
        readAttempts pre = readAttempts w.trace + j ∧
        sleepLog 0 pre = sleepLog 0 w.trace ++ backoffs (readAttempts w.trace) j Second) ∧
      w.clientCalls + j + 3 ≤ (resourceFreeIPAHostCreate cfg fuel w).1.clientCalls ∧
      ∀ e1 : Error, (resourceFreeIPAHostCreate cfg fuel w).2 ≠ Outcome.returned (some e1)) := by
  refine ⟨?_, ?_, ?_, ?_⟩
  · intro h
    refine ⟨?_, ?_, ?_, ?_, ?_⟩
    · rw [create_factory_error cfg fuel w e h]; rfl
    · rw [read_factory_error cfg w e h]
    · rw [update_factory_error cfg w e h]; rfl
    · rw [delete_factory_error cfg w e h]; rfl
    · have hs : cfg (seeded w).clientCalls = .error e := h
      have hr := read_factory_error cfg (seeded w) e hs
      rw [import_read_error cfg w e (by rw [hr]), hr]; rfl
  · intro c res h hm hderef h2
    have key : ∀ w1 : World, w1.clientCalls = w.clientCalls + 1 → w1.d.id = w.d.id →
        w1.trace = w.trace ++ [Event.log "[INFO] Updating Host: %s" w.d.id, Event.factory,
                    Event.hostMod w.d.fqdn (modArgsOf w.d)] →
        resourceFreeIPAHostRead cfg w1 =
          ({ w1 with clientCalls := w.clientCalls + 2,
                     trace := w.trace ++ [Event.log "[INFO] Updating Host: %s" w.d.id,
                        Event.factory, Event.hostMod w.d.fqdn (modArgsOf w.d),
                        Event.log "[INFO] Refreshing Host: %s" w.d.id, Event.factory] },
            some e) := by
      intro w1 hcc hid htr
      rw [read_factory_error cfg w1 e (by rw [hcc]; exact h2), hcc, hid, htr]
      simp
    have hbase : (afterMod w).trace = w.trace ++ [Event.log "[INFO] Updating Host: %s" w.d.id,
        Event.factory, Event.hostMod w.d.fqdn (modArgsOf w.d)] := by
      simp [afterMod, afterFactory, World.emit]
    rcases Bool.eq_false_or_eq_true w.d.random with hr | hr
    · cases hn : res.Randompassword with
      | none => rcases hderef with hd | hd
                · rw [hr] at hd; cases hd
                · exact absurd hn hd
      | some v =>
        rw [update_mod_ok_some cfg w c res v h hm hr hn,
          key ((afterMod w).setRandompassword v) rfl rfl hbase]
        exact ⟨rfl, rfl, rfl⟩
    · rw [update_mod_ok_plain cfg w c res h hm hr, key (afterMod w) rfl rfl hbase]
      exact ⟨rfl, rfl, rfl⟩
  · intro c res h ha
    exact create_outcome_after_add cfg fuel w c res h ha e
  · intro c res j h ha hderef hfail herr hfuel
    have hbase : readAttempts (afterAdd w).trace = readAttempts w.trace ∧
        sleepLog 0 (afterAdd w).trace = sleepLog 0 w.trace := by
      simp [afterAdd, afterFactory, World.emit, World.SetId, readAttempts_append,
        sleepLog_append, readAttempts, sleepLog, Event.isRead]
    have key : ∀ w1 : World, w1.d.fqdn = w.d.fqdn → w1.d.id = w.d.fqdn →
        w1.clientCalls = w.clientCalls + 1 →
        readAttempts w1.trace = readAttempts w.trace →
        sleepLog 0 w1.trace = sleepLog 0 w.trace →
        resourceFreeIPAHostCreate cfg fuel w = createRetryLoop cfg fuel Second w1 →
        (∃ pre post, (resourceFreeIPAHostCreate cfg fuel w).1.trace =
          pre ++ [Event.log "[INFO] Refreshing Host: %s" w.d.fqdn, Event.factory,
                  Event.sleep (backoff j Second),
                  Event.log "[INFO] Refreshing Host: %s" w.d.fqdn, Event.factory] ++ post ∧
          readAttempts pre = readAttempts w.trace + j ∧
          sleepLog 0 pre = sleepLog 0 w.trace ++ backoffs (readAttempts w.trace) j Second) ∧
        w.clientCalls + j + 3 ≤ (resourceFreeIPAHostCreate cfg fuel w).1.clientCalls := by
      intro w1 hfq hid hcc hra hsl heq
      have := loop_retries_factory_failure cfg j fuel Second w1 e
        (by rw [hcc, hfq]; exact hfail) (by rw [hcc]; exact herr) hfuel
      rw [hid, hra, hsl, hcc] at this
      rw [heq]
      exact ⟨this.1, by have := this.2; omega⟩
    refine ⟨?_, ?_, fun e1 => create_outcome_after_add cfg fuel w c res h ha e1⟩
    · rcases Bool.eq_false_or_eq_true w.d.random with hr | hr
      · cases hn : res.Randompassword with
        | none => rcases hderef with hd | hd
                  · rw [hr] at hd; cases hd
                  · exact absurd hn hd
        | some v =>
          exact (key ((afterAdd w).setRandompassword v) rfl rfl rfl hbase.1 hbase.2
            (create_add_ok_some cfg fuel w c res v h ha hr hn)).1
      · exact (key (afterAdd w) rfl rfl rfl hbase.1 hbase.2
          (create_add_ok_plain cfg fuel w c res h ha hr)).1
    · rcases Bool.eq_false_or_eq_true w.d.random with hr | hr
      · cases hn : res.Randompassword with
        | none => rcases hderef with hd | hd
                  · rw [hr] at hd; cases hd
                  · exact absurd hn hd
        | some v =>
          exact (key ((afterAdd w).setRandompassword v) rfl rfl rfl hbase.1 hbase.2
            (create_add_ok_some cfg fuel w c res v h ha hr hn)).2
      · exact (key (afterAdd w) rfl rfl rfl hbase.1 hbase.2
          (create_add_ok_plain cfg fuel w c res h ha hr)).2

/-- C5, run against a factory that always fails with `auth`: `Create` and `Read` return
`auth` after one factory call; and against a factory that fails on its second call: the
`Read` that ends `Update` makes `Update` return `auth`, while `Create`, whose first `Read`
meets that failure, sleeps for 1 second, opens a second `Read` and has called the factory
at least 3 times. -/
theorem factory_failure_surfaced_witness :
    cfgDown "auth" 0 = .error "auth" ∧
    (resourceFreeIPAHostCreate (cfgDown "auth") 3 (World.init rec0)).2
      = Outcome.returned (some "auth") ∧
    (resourceFreeIPAHostCreate (cfgDown "auth") 3 (World.init rec0)).1.clientCalls = 1 ∧
    (resourceFreeIPAHostRead (cfgDown "auth") (World.init rec0)).2 = some "auth" ∧
    (resourceFreeIPAHostUpdate (cfgAuthOnce ⟨none, none, none⟩) (World.init rec0)).2
      = Outcome.returned (some "auth") ∧
    cfgAuthOnce ⟨none, none, none⟩ 1 = .error "auth" ∧
    (∃ pre post, (resourceFreeIPAHostCreate (cfgAuthOnce ⟨none, none, none⟩) 2
        (World.init rec0)).1.trace =
      pre ++ [Event.log "[INFO] Refreshing Host: %s" "a.test", Event.factory,
              Event.sleep 1000000000,
              Event.log "[INFO] Refreshing Host: %s" "a.test", Event.factory] ++ post ∧
      readAttempts pre = 0 ∧ sleepLog 0 pre = []) ∧
    3 ≤ (resourceFreeIPAHostCreate (cfgAuthOnce ⟨none, none, none⟩) 2
        (World.init rec0)).1.clientCalls :=
  have t := (factory_failure_surfaced (cfgDown "auth") 3 (World.init rec0) "auth").1 rfl
  have u := (factory_failure_surfaced (cfgAuthOnce ⟨none, none, none⟩) 0 (World.init rec0)
    "auth").2.1 (okClient ⟨none, none, none⟩) ⟨none, none, none⟩ rfl rfl (Or.inl rfl) rfl
  have v := (factory_failure_surfaced (cfgAuthOnce ⟨none, none, none⟩) 2 (World.init rec0)
    "auth").2.2.2 (okClient ⟨none, none, none⟩) ⟨none, none, none⟩ 0 rfl rfl (Or.inl rfl)
    (by decide) rfl (by decide)
  ⟨rfl, congrArg Prod.snd t.1, congrArg (fun r => r.1.clientCalls) t.1,
    congrArg Prod.snd t.2.1, u.1, rfl, v.1, v.2.1⟩

/-- C5, as stated, fails inside the retry loop of `Create`: the factory call made by the
first `Read` fails with `auth`, and `Create` does not return that error: it sleeps, calls
the factory a third time, calls `HostShow` and returns nil. -/
theorem factory_failure_counterexample :
    cfgAuthOnce ⟨none, none, none⟩ 1 = .error "auth" ∧
    resourceFreeIPAHostCreate (cfgAuthOnce ⟨none, none, none⟩) 2 (World.init rec0) =
      ({ d := { rec0 with id := "a.test" }, clientCalls := 3,
         trace := [Event.log "[INFO][freeipa] Creating Host: %s" "", Event.factory,
                   Event.hostAdd "a.test" ⟨some "d1", some false, some false, some "p1"⟩,
                   Event.log "[INFO] Refreshing Host: %s" "a.test", Event.factory,
                   Event.sleep 1000000000,
                   Event.log "[INFO] Refreshing Host: %s" "a.test", Event.factory,
                   Event.hostShow "a.test"] },
       Outcome.returned none) :=
  ⟨rfl, by rfl⟩

/-! ## C6: `Update` and the random password -/

/-- C6 (amended). `Update` and the random password. Let `HostMod` have succeeded with
response `res`. With `random = true` and a one-time password `v` in the response, `Update`
leaves `randompassword` equal to `v`, whatever it was before; with `random = false` it
leaves `randompassword` as it was. In both cases `Update` does not crash and goes on to
exactly one `Read`, and no `Read` alters `randompassword`. With `random = true` and no
`Randompassword` in the response, `Update` stops at the dereference: the record is as it
was and no `Read` is made. -/
theorem update_randompassword (cfg : Config) (w : World) (c : Client) (res : Host)
    (h : cfg w.clientCalls = .ok c) (hm : c.HostMod w.d.fqdn (modArgsOf w.d) = .ok res) :
    (∀ v, w.d.random = true → res.Randompassword = some v →
      (resourceFreeIPAHostUpdate cfg w).1.d.randompassword = v ∧
      readAttempts (resourceFreeIPAHostUpdate cfg w).1.trace = readAttempts w.trace + 1 ∧
      (resourceFreeIPAHostUpdate cfg w).2 ≠ Outcome.nilDeref) ∧
    (w.d.random = false →
      (resourceFreeIPAHostUpdate cfg w).1.d.randompassword = w.d.randompassword ∧
      readAttempts (resourceFreeIPAHostUpdate cfg w).1.trace = readAttempts w.trace + 1 ∧
      (resourceFreeIPAHostUpdate cfg w).2 ≠ Outcome.nilDeref) ∧
    (∀ w1 : World, (resourceFreeIPAHostRead cfg w1).1.d.randompassword = w1.d.randompassword) ∧
    (w.d.random = true → res.Randompassword = none →
      (resourceFreeIPAHostUpdate cfg w).2 = Outcome.nilDeref ∧
      (resourceFreeIPAHostUpdate cfg w).1.d = w.d ∧
      readAttempts (resourceFreeIPAHostUpdate cfg w).1.trace = readAttempts w.trace) := by
  have hbase : readAttempts (afterMod w).trace = readAttempts w.trace := by
    simp [afterMod, afterFactory, World.emit, readAttempts_append, readAttempts, Event.isRead]
  refine ⟨?_, ?_, ?_, ?_⟩
  · intro v hr hn
    rw [update_mod_ok_some cfg w c res v h hm hr hn]
    have := read_frame cfg ((afterMod w).setRandompassword v)
    exact ⟨this.2.2.2.2.1, by rw [this.2.2.2.2.2.2.1]; exact congrArg (· + 1) hbase, by simp⟩
  · intro hr
    rw [update_mod_ok_plain cfg w c res h hm hr]
    have := read_frame cfg (afterMod w)
    exact ⟨this.2.2.2.2.1, by rw [this.2.2.2.2.2.2.1, hbase], by simp⟩
  · intro w1
    exact (read_frame cfg w1).2.2.2.2.1
  · intro hr hn
    rw [update_mod_ok_nil cfg w c res h hm hr hn]
    exact ⟨rfl, rfl, hbase⟩

/-- C6, run on a record holding `old-otp` against a `HostMod` that returns `new-otp`:
with `random = true` the record ends with `new-otp` after one `Read`, with `random = false`
with `old-otp`; and against a `HostMod` that returns no password, with `random = true`:
`Update` stops at the dereference with the record as it was. -/
theorem update_randompassword_witness :
    (resourceFreeIPAHostUpdate (cfgOk ⟨none, none, some "new-otp"⟩)
      (World.init recStale)).1.d.randompassword = "new-otp" ∧
    readAttempts (resourceFreeIPAHostUpdate (cfgOk ⟨none, none, some "new-otp"⟩)
      (World.init recStale)).1.trace = 1 ∧
    (resourceFreeIPAHostUpdate (cfgOk ⟨none, none, some "new-otp"⟩)
      (World.init { recStale with random := false })).1.d.randompassword = "old-otp" ∧
    (resourceFreeIPAHostUpdate (cfgOk ⟨none, none, none⟩) (World.init recStale)).2
      = Outcome.nilDeref ∧
    (resourceFreeIPAHostUpdate (cfgOk ⟨none, none, none⟩) (World.init recStale)).1.d
      = recStale :=
  have t := (update_randompassword (cfgOk ⟨none, none, some "new-otp"⟩) (World.init recStale)
      (okClient ⟨none, none, some "new-otp"⟩) ⟨none, none, some "new-otp"⟩ rfl rfl).1
      "new-otp" rfl rfl
  have u := (update_randompassword (cfgOk ⟨none, none, none⟩) (World.init recStale)
      (okClient ⟨none, none, none⟩) ⟨none, none, none⟩ rfl rfl).2.2.2 rfl rfl
  ⟨t.1, t.2.1,
   ((update_randompassword (cfgOk ⟨none, none, some "new-otp"⟩)
      (World.init { recStale with random := false })
      (okClient ⟨none, none, some "new-otp"⟩) ⟨none, none, some "new-otp"⟩ rfl rfl).2.1 rfl).1,
   u.1, u.2.1⟩

/-- C6, as stated, fails: `HostMod` succeeds on a record with `random = true` holding
`old-otp`, and the response carries no `Randompassword`. `Update` stops at the nil
dereference: `randompassword` is still `old-otp`, which is not a password returned in the
response, and the final `Read` is never made. -/
theorem update_randompassword_counterexample :
    cfgOk ⟨none, none, none⟩ 0 = .ok (okClient ⟨none, none, none⟩) ∧
    (okClient ⟨none, none, none⟩).HostMod recStale.fqdn (modArgsOf recStale)
      = .ok ⟨none, none, none⟩ ∧
    recStale.random = true ∧
    (resourceFreeIPAHostUpdate (cfgOk ⟨none, none, none⟩) (World.init recStale)).2
      = Outcome.nilDeref ∧
    (resourceFreeIPAHostUpdate (cfgOk ⟨none, none, none⟩)
      (World.init recStale)).1.d.randompassword = "old-otp" ∧
    some (resourceFreeIPAHostUpdate (cfgOk ⟨none, none, none⟩)
      (World.init recStale)).1.d.randompassword ≠ (Host.mk none none none).Randompassword ∧
    readAttempts (resourceFreeIPAHostUpdate (cfgOk ⟨none, none, none⟩)
      (World.init recStale)).1.trace = 0 := by
  refine ⟨rfl, rfl, rfl, rfl, rfl, ?_, rfl⟩
  simp

/-! ## C7: what `Read` writes -/

/-- C7. `Read` writes at most `description` and `userpassword`. If `HostShow` succeeds
with response `res`, `Read` returns nil and the record differs from the one before in
`description` (the response's, when it is not nil) and `userpassword` (likewise) only: the
identifier, `fqdn`, `random`, `force` and `randompassword` are as before. If `HostShow`
fails, or the factory does, `Read` returns that very error and the record is as it was. -/
theorem read_writes_description_and_userpassword (cfg : Config) (w : World) :
    (∀ (c : Client) (res : Host), cfg w.clientCalls = .ok c → c.HostShow w.d.fqdn = .ok res →
      (resourceFreeIPAHostRead cfg w).2 = none ∧
      (resourceFreeIPAHostRead cfg w).1.d =
        { w.d with description := res.Description.getD w.d.description,
                   userpassword := res.Userpassword.getD w.d.userpassword } ∧
      (∀ v, res.Description = some v → (resourceFreeIPAHostRead cfg w).1.d.description = v) ∧
      (res.Description = none →
        (resourceFreeIPAHostRead cfg w).1.d.description = w.d.description) ∧
      (∀ v, res.Userpassword = some v → (resourceFreeIPAHostRead cfg w).1.d.userpassword = v) ∧
      (res.Userpassword = none →
        (resourceFreeIPAHostRead cfg w).1.d.userpassword = w.d.userpassword)) ∧
    (∀ (c : Client) (e : Error), cfg w.clientCalls = .ok c → c.HostShow w.d.fqdn = .error e →
      (resourceFreeIPAHostRead cfg w).2 = some e ∧ (resourceFreeIPAHostRead cfg w).1.d = w.d) ∧
    (∀ e : Error, cfg w.clientCalls = .error e →
      (resourceFreeIPAHostRead cfg w).2 = some e ∧ (resourceFreeIPAHostRead cfg w).1.d = w.d) ∧
    ((resourceFreeIPAHostRead cfg w).1.d.id = w.d.id ∧
      (resourceFreeIPAHostRead cfg w).1.d.fqdn = w.d.fqdn ∧
      (resourceFreeIPAHostRead cfg w).1.d.random = w.d.random ∧
      (resourceFreeIPAHostRead cfg w).1.d.force = w.d.force ∧
      (resourceFreeIPAHostRead cfg w).1.d.randompassword = w.d.randompassword) := by
  refine ⟨?_, ?_, ?_, ?_⟩
  · intro c res h hs
    rw [read_show_ok cfg w c res h hs]
    refine ⟨rfl, rfl, ?_, ?_, ?_, ?_⟩
    · intro v hv; simp [readInto, hv]
    · intro hv; simp [readInto, hv]
    · intro v hv; simp [readInto, hv]
    · intro hv; simp [readInto, hv]
  · intro c e h hs
    rw [read_show_error cfg w c e h hs]; exact ⟨rfl, rfl⟩
  · intro e h
    rw [read_factory_error cfg w e h]; exact ⟨rfl, rfl⟩
  · have := read_frame cfg w
    exact ⟨this.1, this.2.1, this.2.2.1, this.2.2.2.1, this.2.2.2.2.1⟩

/-- C7, run on a record with a stale random password: a `HostShow` that returns a
description and no user password changes `description` only; a `HostShow` that fails with
not-found gives that error back and changes nothing. -/
theorem read_writes_description_and_userpassword_witness :
    (resourceFreeIPAHostRead (cfgOk ⟨some "fresh", none, some "ignored"⟩)
      (World.init recStale)).1.d = { recStale with description := "fresh" } ∧
    (resourceFreeIPAHostRead (cfgRemoteDown "NotFound (4001)") (World.init recStale)).2
      = some "NotFound (4001)" ∧
    (resourceFreeIPAHostRead (cfgRemoteDown "NotFound (4001)") (World.init recStale)).1.d
      = recStale :=
  ⟨((read_writes_description_and_userpassword (cfgOk ⟨some "fresh", none, some "ignored"⟩)
      (World.init recStale)).1 (okClient ⟨some "fresh", none, some "ignored"⟩)
      ⟨some "fresh", none, some "ignored"⟩ rfl rfl).2.1,
   ((read_writes_description_and_userpassword (cfgRemoteDown "NotFound (4001)")
      (World.init recStale)).2.1 (failClient "NotFound (4001)") "NotFound (4001)" rfl rfl).1,
   ((read_writes_description_and_userpassword (cfgRemoteDown "NotFound (4001)")
      (World.init recStale)).2.1 (failClient "NotFound (4001)") "NotFound (4001)" rfl rfl).2⟩

/-! ## C8: `Import` -/

/-- C8. `Import` on a record whose identifier is `s` hands `Read` the record with both the
identifier and `fqdn` equal to `s` (every other attribute as it was), so that a `HostShow`,
when the factory yields a handle, is called with `fqdn = s`. If that `Read` succeeds,
`Import` returns the one-element list holding the record as `Read` left it (identifier and
`fqdn` still `s`) and no error; if it fails with `e`, `Import` returns the empty list and
exactly `e`. -/
theorem import_seeds_identifier_and_fqdn (cfg : Config) (w : World) :
    ((resourceFreeIPAHostRead cfg
        { w with d := { w.d with id := w.d.id, fqdn := w.d.id } }).2 = none →
      resourceFreeIPAHostImport cfg w =
        ((resourceFreeIPAHostRead cfg
            { w with d := { w.d with id := w.d.id, fqdn := w.d.id } }).1,
          [(resourceFreeIPAHostRead cfg
            { w with d := { w.d with id := w.d.id, fqdn := w.d.id } }).1.d], none)) ∧
    (∀ e, (resourceFreeIPAHostRead cfg
        { w with d := { w.d with id := w.d.id, fqdn := w.d.id } }).2 = some e →
      resourceFreeIPAHostImport cfg w =
        ((resourceFreeIPAHostRead cfg
            { w with d := { w.d with id := w.d.id, fqdn := w.d.id } }).1, [], some e)) ∧
    (∀ c : Client, cfg w.clientCalls = .ok c →
      (resourceFreeIPAHostImport cfg w).1.trace =
        w.trace ++ [Event.log "[INFO] Refreshing Host: %s" w.d.id, Event.factory,
                    Event.hostShow w.d.id]) ∧
    ((resourceFreeIPAHostImport cfg w).1.d.id = w.d.id ∧
      (resourceFreeIPAHostImport cfg w).1.d.fqdn = w.d.id) ∧
    (∀ d ∈ (resourceFreeIPAHostImport cfg w).2.1, d.id = w.d.id ∧ d.fqdn = w.d.id) := by
  have hs : ({ w with d := { w.d with id := w.d.id, fqdn := w.d.id } } : World) = seeded w := rfl
  rw [hs]
  have hf := read_frame cfg (seeded w)
  have hids : (resourceFreeIPAHostImport cfg w).1.d.id = w.d.id ∧
      (resourceFreeIPAHostImport cfg w).1.d.fqdn = w.d.id ∧
      ∀ d ∈ (resourceFreeIPAHostImport cfg w).2.1, d.id = w.d.id ∧ d.fqdn = w.d.id := by
    cases hr : (resourceFreeIPAHostRead cfg (seeded w)).2 with
    | none =>
      rw [import_read_ok cfg w hr]
      refine ⟨hf.1, hf.2.1, ?_⟩
      intro d hd
      simp only [List.mem_singleton] at hd
      rw [hd]; exact ⟨hf.1, hf.2.1⟩
    | some e =>
      rw [import_read_error cfg w e hr]
      exact ⟨hf.1, hf.2.1, by simp⟩
  refine ⟨import_read_ok cfg w, import_read_error cfg w, ?_, ⟨hids.1, hids.2.1⟩, hids.2.2⟩
  intro c h
  have hc : cfg (seeded w).clientCalls = .ok c := h
  have htr : (resourceFreeIPAHostRead cfg (seeded w)).1.trace =
      w.trace ++ [Event.log "[INFO] Refreshing Host: %s" w.d.id, Event.factory,
                  Event.hostShow w.d.id] := by
    cases hsw : c.HostShow (seeded w).d.fqdn with
    | error e => rw [read_show_error cfg (seeded w) c e hc hsw]; rfl
    | ok res => rw [read_show_ok cfg (seeded w) c res hc hsw]; rfl
  cases hr : (resourceFreeIPAHostRead cfg (seeded w)).2 with
  | none => rw [import_read_ok cfg w hr]; exact htr
  | some e => rw [import_read_error cfg w e hr]; exact htr

/-- C8, run on the identifier `host1.example.com`: `HostShow` is called with it, the
record returned has it as identifier and as `fqdn`; when `HostShow` fails `Import` returns
the empty list and that error. -/
theorem import_seeds_identifier_and_fqdn_witness :
    resourceFreeIPAHostImport (cfgOk ⟨some "web", none, none⟩) (World.init recImport) =
      ({ d := { recImport with fqdn := "host1.example.com", description := "web" },
         clientCalls := 1,
         trace := [Event.log "[INFO] Refreshing Host: %s" "host1.example.com", Event.factory,
                   Event.hostShow "host1.example.com"] },
       [{ recImport with fqdn := "host1.example.com", description := "web" }], none) ∧
    resourceFreeIPAHostImport (cfgRemoteDown "NotFound (4001)") (World.init recImport) =
      ({ d := { recImport with fqdn := "host1.example.com" },
         clientCalls := 1,
         trace := [Event.log "[INFO] Refreshing Host: %s" "host1.example.com", Event.factory,
                   Event.hostShow "host1.example.com"] },
       [], some "NotFound (4001)") :=
  ⟨(import_seeds_identifier_and_fqdn (cfgOk ⟨some "web", none, none⟩)
      (World.init recImport)).1 rfl,
   (import_seeds_identifier_and_fqdn (cfgRemoteDown "NotFound (4001)")
      (World.init recImport)).2.1 "NotFound (4001)" rfl⟩

/-! ## C9: the identifier and `fqdn` -/

/-- C9 (amended). Where the identifier equals `fqdn`. `Create` establishes it as soon as
`HostAdd` has succeeded, and it holds in the state `Create` ends in, whether it returns nil,
crashes on the nil password or is still retrying; `Import` establishes it whether its `Read`
succeeds or fails, also for the record it returns. `Read` and `Update` preserve it, whether
they succeed or fail, and so does a `Delete` that fails. A `Delete` that succeeds ends it by
design: the identifier becomes the empty string and `fqdn` keeps its value. A `Create` that
returns an error has not touched the record. -/
theorem identifier_equals_fqdn (cfg : Config) (fuel : Nat) (w : World) :
    (∀ (c : Client) (res : Host), cfg w.clientCalls = .ok c →
      c.HostAdd w.d.fqdn (addArgsOf w.d) = .ok res →
      (resourceFreeIPAHostCreate cfg fuel w).1.d.id
        = (resourceFreeIPAHostCreate cfg fuel w).1.d.fqdn) ∧
    ((resourceFreeIPAHostImport cfg w).1.d.id = (resourceFreeIPAHostImport cfg w).1.d.fqdn ∧
      ∀ d ∈ (resourceFreeIPAHostImport cfg w).2.1, d.id = d.fqdn) ∧
    (w.d.id = w.d.fqdn →
      (resourceFreeIPAHostRead cfg w).1.d.id = (resourceFreeIPAHostRead cfg w).1.d.fqdn) ∧
    (w.d.id = w.d.fqdn →
      (resourceFreeIPAHostUpdate cfg w).1.d.id = (resourceFreeIPAHostUpdate cfg w).1.d.fqdn) ∧
    (w.d.id = w.d.fqdn → ∀ e, (resourceFreeIPAHostDelete cfg w).2 = some e →
      (resourceFreeIPAHostDelete cfg w).1.d.id = (resourceFreeIPAHostDelete cfg w).1.d.fqdn) ∧
    ((resourceFreeIPAHostDelete cfg w).2 = none →
      (resourceFreeIPAHostDelete cfg w).1.d.id = "" ∧
      (resourceFreeIPAHostDelete cfg w).1.d.fqdn = w.d.fqdn) ∧
    (∀ e, (resourceFreeIPAHostCreate cfg fuel w).2 = Outcome.returned (some e) →
      (resourceFreeIPAHostCreate cfg fuel w).1.d = w.d) := by
  refine ⟨?_, ?_, ?_, ?_, ?_, ?_, ?_⟩
  · intro c res h ha
    have := create_id_after_add cfg fuel w c res h ha
    rw [this.1, this.2]
  · have hf := read_frame cfg (seeded w)
    cases hr : (resourceFreeIPAHostRead cfg (seeded w)).2 with
    | none =>
      rw [import_read_ok cfg w hr]
      have hid : (resourceFreeIPAHostRead cfg (seeded w)).1.d.id
          = (resourceFreeIPAHostRead cfg (seeded w)).1.d.fqdn := by rw [hf.1, hf.2.1]; rfl
      refine ⟨hid, ?_⟩
      intro d hd
      simp only [List.mem_singleton] at hd
      rw [hd]; exact hid
    | some e =>
      rw [import_read_error cfg w e hr]
      exact ⟨by rw [hf.1, hf.2.1]; rfl, by simp⟩
  · intro hinv
    have hf := read_frame cfg w
    rw [hf.1, hf.2.1]; exact hinv
  · intro hinv
    have hf := update_id_fqdn cfg w
    rw [hf.1, hf.2]; exact hinv
  · intro hinv e he
    cases h : cfg w.clientCalls with
    | error e1 => rw [delete_factory_error cfg w e1 h]; exact hinv
    | ok c =>
      cases hd : c.HostDel [w.d.fqdn] with
      | error e1 => rw [delete_del_error cfg w c e1 h hd]; exact hinv
      | ok u => rw [delete_del_ok cfg w c u h hd] at he; cases he
  · intro he
    cases h : cfg w.clientCalls with
    | error e1 => rw [delete_factory_error cfg w e1 h] at he; cases he
    | ok c =>
      cases hd : c.HostDel [w.d.fqdn] with
      | error e1 => rw [delete_del_error cfg w c e1 h hd] at he; cases he
      | ok u => rw [delete_del_ok cfg w c u h hd]; exact ⟨rfl, rfl⟩
  · intro e he
    cases h : cfg w.clientCalls with
    | error e1 => rw [create_factory_error cfg fuel w e1 h]; rfl
    | ok c =>
      cases ha : c.HostAdd w.d.fqdn (addArgsOf w.d) with
      | error e1 => rw [create_add_error cfg fuel w c e1 h ha]; rfl
      | ok res => exact absurd he (create_outcome_after_add cfg fuel w c res h ha e)

/-- C9, run on `a.test`: a `Create` that had to retry and an `Update` whose `HostMod`
fails both end with the identifier equal to `fqdn`; a successful `Delete` ends with the
identifier empty and `fqdn` still `a.test`. -/
theorem identifier_equals_fqdn_witness :
    (resourceFreeIPAHostCreate (cfgLag 1 ⟨none, none, none⟩) 2 (World.init rec0)).1.d.id
      = (resourceFreeIPAHostCreate (cfgLag 1 ⟨none, none, none⟩) 2 (World.init rec0)).1.d.fqdn ∧
    (resourceFreeIPAHostUpdate (cfgRemoteDown "boom") (World.init recManaged)).1.d.id
      = (resourceFreeIPAHostUpdate (cfgRemoteDown "boom") (World.init recManaged)).1.d.fqdn ∧
    ((resourceFreeIPAHostDelete (cfgOk ⟨none, none, none⟩) (World.init recManaged)).1.d.id = "" ∧
      (resourceFreeIPAHostDelete (cfgOk ⟨none, none, none⟩) (World.init recManaged)).1.d.fqdn
        = "a.test") :=
  ⟨(identifier_equals_fqdn (cfgLag 1 ⟨none, none, none⟩) 2 (World.init rec0)).1
      (okClient ⟨none, none, none⟩) ⟨none, none, none⟩ rfl rfl,
   (identifier_equals_fqdn (cfgRemoteDown "boom") 0 (World.init recManaged)).2.2.2.1 rfl,
   (identifier_equals_fqdn (cfgOk ⟨none, none, none⟩) 0 (World.init recManaged)).2.2.2.2.2.1 rfl⟩

/-- C9, as stated, fails: a successful `Delete` on a record with identifier equal to `fqdn`
returns nil and leaves the identifier empty while `fqdn` is still `a.test`; and a `Create`
whose `HostAdd` fails returns with the identifier still empty and `fqdn` set. -/
theorem identifier_equals_fqdn_counterexample :
    recManaged.id = recManaged.fqdn ∧
    (resourceFreeIPAHostDelete (cfgOk ⟨none, none, none⟩) (World.init recManaged)).2 = none ∧
    (resourceFreeIPAHostDelete (cfgOk ⟨none, none, none⟩) (World.init recManaged)).1.d.id
      ≠ (resourceFreeIPAHostDelete (cfgOk ⟨none, none, none⟩) (World.init recManaged)).1.d.fqdn ∧
    (resourceFreeIPAHostCreate (cfgRemoteDown "DuplicateEntry (4002)") 1 (World.init rec0)).2
      = Outcome.returned (some "DuplicateEntry (4002)") ∧
    (resourceFreeIPAHostCreate (cfgRemoteDown "DuplicateEntry (4002)") 1 (World.init rec0)).1.d.id
      ≠ (resourceFreeIPAHostCreate (cfgRemoteDown "DuplicateEntry (4002)") 1
          (World.init rec0)).1.d.fqdn := by
  refine ⟨rfl, rfl, ?_, rfl, ?_⟩ <;> decide

/-! ## C10: the dereference of `Randompassword` -/

/-- C10. The dereference of the response's `Randompassword` is guarded by the `random`
flag only. With `random = false` neither `Create` nor `Update` ends in a nil dereference,
whatever the remote answers. With `random = true` and a successful remote write, `Create`
(for every fuel) and `Update` get past the dereference exactly when the response carries a
`Randompassword`. -/
theorem randompassword_dereference_guard (cfg : Config) (fuel : Nat) (w : World) :
    (w.d.random = false →
      (resourceFreeIPAHostCreate cfg fuel w).2 ≠ Outcome.nilDeref ∧
      (resourceFreeIPAHostUpdate cfg w).2 ≠ Outcome.nilDeref) ∧
    (∀ (c : Client) (res : Host), cfg w.clientCalls = .ok c →
      c.HostAdd w.d.fqdn (addArgsOf w.d) = .ok res → w.d.random = true →
      ((resourceFreeIPAHostCreate cfg fuel w).2 ≠ Outcome.nilDeref ↔
        res.Randompassword ≠ none)) ∧
    (∀ (c : Client) (res : Host), cfg w.clientCalls = .ok c →
      c.HostMod w.d.fqdn (modArgsOf w.d) = .ok res → w.d.random = true →
      ((resourceFreeIPAHostUpdate cfg w).2 ≠ Outcome.nilDeref ↔
        res.Randompassword ≠ none)) := by
  refine ⟨?_, ?_, ?_⟩
  · intro hr
    constructor
    · cases h : cfg w.clientCalls with
      | error e => rw [create_factory_error cfg fuel w e h]; simp
      | ok c =>
        cases ha : c.HostAdd w.d.fqdn (addArgsOf w.d) with
        | error e => rw [create_add_error cfg fuel w c e h ha]; simp
        | ok res =>
          rw [create_add_ok_plain cfg fuel w c res h ha hr]
          rcases loop_outcome cfg fuel Second (afterAdd w) with h1 | h1 <;> simp [h1]
    · cases h : cfg w.clientCalls with
      | error e => rw [update_factory_error cfg w e h]; simp
      | ok c =>
        cases hm : c.HostMod w.d.fqdn (modArgsOf w.d) with
        | error e => rw [update_mod_error cfg w c e h hm]; simp
        | ok res => rw [update_mod_ok_plain cfg w c res h hm hr]; simp
  · intro c res h ha hr
    cases hn : res.Randompassword with
    | none => rw [create_add_ok_nil cfg fuel w c res h ha hr hn]; simp
    | some v =>
      rw [create_add_ok_some cfg fuel w c res v h ha hr hn]
      rcases loop_outcome cfg fuel Second ((afterAdd w).setRandompassword v) with h1 | h1 <;>
        simp [h1]
  · intro c res h hm hr
    cases hn : res.Randompassword with
    | none => rw [update_mod_ok_nil cfg w c res h hm hr hn]; simp
    | some v => rw [update_mod_ok_some cfg w c res v h hm hr hn]; simp

/-- C10, run against responses without a `Randompassword`: with `random = false`
`Create` is not stopped, with `random = true` it is stopped at the dereference; and with a
`Randompassword` in the response `Update` gets past it. -/
theorem randompassword_dereference_guard_witness :
    (resourceFreeIPAHostCreate (cfgOk ⟨none, none, none⟩) 1 (World.init rec0)).2
      ≠ Outcome.nilDeref ∧
    ¬ ((resourceFreeIPAHostCreate (cfgOk ⟨none, none, none⟩) 1 (World.init recRandom)).2
      ≠ Outcome.nilDeref) ∧
    (resourceFreeIPAHostUpdate (cfgOk ⟨none, none, some "otp"⟩) (World.init recRandom)).2
      ≠ Outcome.nilDeref :=
  ⟨((randompassword_dereference_guard (cfgOk ⟨none, none, none⟩) 1 (World.init rec0)).1 rfl).1,
   fun hne => ((randompassword_dereference_guard (cfgOk ⟨none, none, none⟩) 1
      (World.init recRandom)).2.1 (okClient ⟨none, none, none⟩) ⟨none, none, none⟩
      rfl rfl rfl).1 hne rfl,
   ((randompassword_dereference_guard (cfgOk ⟨none, none, some "otp"⟩) 1
      (World.init recRandom)).2.2 (okClient ⟨none, none, some "otp"⟩) ⟨none, none, some "otp"⟩
      rfl rfl rfl).2 (by simp)⟩

end FreeIPA
